import Mathlib

/-!
# Contextual structured logging: correlation context, logger resolution and adapters

A shallow embedding of the Go packages `logger`, `logger/instrumentation/httplog` and
`logger/instrumentation/ginlog`, followed by theorems about them.

Modelling conventions

* A Go slice is modelled by its content; `none` is the nil slice, `some xs` a non-nil slice
  holding `xs`. Capacity and the backing array are kept only in the namespace `backing`,
  which models slice headers over shared backing arrays.
* A Go `interface{}` value is modelled by `Any`, which keeps the dynamic types the packages
  test with a type assertion and folds everything else into `Any.other`.
* A Go map is modelled by an association list read at the first matching key.
* `uuid.NewString()` is modelled by passing the string it would return as an argument.
* The case table of the Go package `unicode`, which `strings.ToLower` consults for a rune
  outside ASCII, is the parameter `caseRanges` of every definition that lower-cases a string.
* The zap logger is modelled by its observable state: the cores it writes to, its name and
  the fields attached with `With`.
-/

set_option autoImplicit false
set_option linter.constructorNameAsVariable false
set_option linter.unusedVariables false

/-! ## Go library values -/

/-- A Go slice by content: `none` is the nil slice. -/
abbrev Slice (α : Type) := Option (List α)

/-- The elements of a slice, the nil slice having none. -/
def Slice.elems {α : Type} (s : Slice α) : List α := s.getD []

/-- Go `len(s)`. -/
def Slice.len {α : Type} (s : Slice α) : Nat := s.elems.length

/-- Go `append(s, t...)` for a non-nil `s`, by content. -/
def goAppend {α : Type} (s : List α) (t : Slice α) : Slice α := some (s ++ t.elems)

/-- A Go pointer or interface value that may be nil: `none` is nil. -/
abbrev Nilable (α : Type) := Option α

/-- A Go map as an association list; the first binding of a key is the live one. -/
abbrev GoMap (κ ν : Type) := List (κ × ν)

/-- Go `v, ok := m[k]`. -/
def GoMap.get {κ ν : Type} [DecidableEq κ] : GoMap κ ν → κ → Option ν
  | [], _ => none
  | (k, v) :: rest, q => if k = q then some v else GoMap.get rest q

/-- Go `m[k] = v`. -/
def GoMap.set {κ ν : Type} [DecidableEq κ] (m : GoMap κ ν) (k : κ) (v : ν) : GoMap κ ν :=
  (k, v) :: m.filter (fun e => !decide (e.1 = k))

/-- Go `unicode.ToLower`: an ASCII rune is lower-cased by arithmetic on the letters `A` to `Z`,
any other rune through the case table of the `unicode` package, the parameter `caseRanges`. -/
def unicode.ToLower (caseRanges : Char → Char) (r : Char) : Char :=
  if r.toNat ≤ 127 then r.toLower else caseRanges r

/-- Go `strings.ToLower`: every rune of the string is mapped by `unicode.ToLower`. -/
def ToLower (caseRanges : Char → Char) (s : String) : String :=
  String.mk (s.data.map (unicode.ToLower caseRanges))

/-- Drop the leading run of the character `c`. -/
def trimLeft (c : Char) : List Char → List Char
  | [] => []
  | x :: xs => if x = c then trimLeft c xs else x :: xs

/-- Go `strings.Trim(s, cutset)` for a cutset of the single character `c`. -/
def Trim (s : String) (c : Char) : String :=
  String.mk (trimLeft c (trimLeft c s.data).reverse).reverse

namespace zap

/-! ## The zap collaborator: levels, fields, cores and loggers -/

/-- A `zapcore.Level`; larger is more severe. -/
abbrev Level := Int

/-- Go `zapcore.DebugLevel`. -/
def DebugLevel : Level := -1
/-- Go `zapcore.InfoLevel`. -/
def InfoLevel : Level := 0
/-- Go `zapcore.WarnLevel`. -/
def WarnLevel : Level := 1
/-- Go `zapcore.ErrorLevel`. -/
def ErrorLevel : Level := 2

/-- The payload of a `zap.Field`, by constructor. -/
inductive FieldValue
  | string (s : String)
  | byteString (b : Slice UInt8)
  | int (i : Int)
  | duration (d : Int)
  | strings (ss : List String)
  | errors (es : List String)
  deriving DecidableEq, Repr

/-- A `zap.Field`: a key and a typed payload. -/
structure Field where
  Key : String
  Val : FieldValue
  deriving DecidableEq, Repr

/-- The two level enablers that `logger.New` builds as closures over `globalLevel`. -/
inductive LevelEnabler
  | lowPriority (globalLevel : Level)
  | highPriority
  deriving DecidableEq, Repr

/-- Go `LevelEnabler.Enabled`: the body of the two closures of `logger.New`. -/
def LevelEnabler.Enabled : LevelEnabler → Level → Bool
  | .lowPriority globalLevel, lvl => decide (lvl ≥ globalLevel) && decide (lvl < ErrorLevel)
  | .highPriority, lvl => decide (lvl ≥ ErrorLevel)

/-- The streams a core writes to. -/
inductive WriteSyncer
  | Stdout
  | Stderr
  deriving DecidableEq, Repr

/-- Go `zapcore.NewCore(enc, ws, enab)`: a sink and the levels it accepts. -/
structure Core where
  out : WriteSyncer
  enab : LevelEnabler
  deriving DecidableEq, Repr

/-- A `*zap.Logger` by observable state. `cores` is the tee of cores (empty for the no-op
logger), `fields` the context accumulated through `With`. -/
structure Logger where
  cores : List Core
  name : String
  fields : List Field
  addCaller : Bool
  callerSkip : Int
  deriving DecidableEq, Repr

/-- Go `zap.NewNop()`. -/
def NewNop : Logger := ⟨[], "", [], false, 0⟩

/-- The options the repository passes to `zap.New`. -/
inductive Option
  | WithCaller (enabled : Bool)
  | AddCallerSkip (skip : Int)
  deriving DecidableEq, Repr

/-- Apply one option to a logger. -/
def Option.apply : Option → Logger → Logger
  | .WithCaller b, l => { l with addCaller := b }
  | .AddCallerSkip n, l => { l with callerSkip := l.callerSkip + n }

/-- Go `zap.New(core, options...)` for a tee of `cores`. -/
def New (cores : List Core) (options : List Option) : Logger :=
  options.foldl (fun l o => o.apply l) ⟨cores, "", [], false, 0⟩

/-- Go `Logger.Named`: the empty name changes nothing, another is joined with a dot. -/
def Logger.Named (log : Logger) (s : String) : Logger :=
  if s = "" then log
  else if log.name = "" then { log with name := s }
  else { log with name := log.name ++ "." ++ s }

/-- Go `Logger.With`: the fields are added after those already attached. -/
def Logger.With (log : Logger) (fields : List Field) : Logger :=
  if fields.length = 0 then log else { log with fields := log.fields ++ fields }

/-- A record as handed to a core. -/
structure Entry where
  Level : Level
  LoggerName : String
  Message : String
  Fields : List Field
  deriving DecidableEq, Repr

/-- One write of a record to a sink. -/
structure Write where
  out : WriteSyncer
  entry : Entry
  deriving DecidableEq, Repr

/-- Emission of a record: every core whose enabler accepts the level writes it, with the
logger fields followed by the call fields. -/
def Logger.log (log : Logger) (lvl : Level) (msg : String) (fields : List Field) : List Write :=
  (log.cores.filter (fun c => c.enab.Enabled lvl)).map
    (fun c => ⟨c.out, ⟨lvl, log.name, msg, log.fields ++ fields⟩⟩)

/-- Go `Logger.Debug`. -/
def Logger.Debug (log : Logger) (msg : String) (fields : List Field) : List Write :=
  log.log DebugLevel msg fields
/-- Go `Logger.Info`. -/
def Logger.Info (log : Logger) (msg : String) (fields : List Field) : List Write :=
  log.log InfoLevel msg fields
/-- Go `Logger.Warn`. -/
def Logger.Warn (log : Logger) (msg : String) (fields : List Field) : List Write :=
  log.log WarnLevel msg fields
/-- Go `Logger.Error`. -/
def Logger.Error (log : Logger) (msg : String) (fields : List Field) : List Write :=
  log.log ErrorLevel msg fields

/-- Go `zap.ByteString`. -/
def ByteString (key : String) (val : Slice UInt8) : Field := ⟨key, .byteString val⟩
/-- Go `zap.Int`. -/
def Int (key : String) (val : ℤ) : Field := ⟨key, .int val⟩
/-- Go `zap.Duration`. -/
def Duration (key : String) (val : ℤ) : Field := ⟨key, .duration val⟩
/-- Go `zap.Strings`. -/
def Strings (key : String) (val : List String) : Field := ⟨key, .strings val⟩
/-- Go `zap.Errors`, an error being kept by its message. -/
def Errors (key : String) (errs : List String) : Field := ⟨key, .errors errs⟩
/-- Go `zap.String`. -/
def String (key val : String) : Field := ⟨key, .string val⟩

end zap

namespace logger

/-! ## consts.go and fields.go -/

/-- The type of the context keys of this package: a named string type. Any other key of a
context is `foreign`. -/
inductive Key
  | correlationIDCtxKey (s : String)
  | foreign (s : String)
  deriving DecidableEq, Repr

def RequestIDKey : Key := .correlationIDCtxKey "loggerRequestIDKey"
def BindFieldsKey : Key := .correlationIDCtxKey "loggerBindFields"
def ProcessIDKey : Key := .correlationIDCtxKey "loggerProcessIDKey"

def LevelDebug : String := "debug"
def LevelInfo : String := "info"
def LevelWarn : String := "warn"
def LevelError : String := "error"

def HTTPHeaderRequestID : String := "x-log-request-id"
def HTTPHeaderProcessID : String := "x-log-process-id"

def MQMessageIDKey : String := "mq_message_id"
def RequestDumpKey : String := "request_dump"
def ResponseDumpKey : String := "response_dump"
def ProspectIDKey : String := "prospect_id"
def ApplicationIDKey : String := "application_id"

def ProspectID (val : String) : zap.Field := zap.String ProspectIDKey val
def ApplicationID (val : String) : zap.Field := zap.String ApplicationIDKey val
def RequestDump (body : Slice UInt8) : zap.Field := zap.ByteString RequestDumpKey body
def ResponseDump (body : Slice UInt8) : zap.Field := zap.ByteString ResponseDumpKey body
def MQMessageID (id : String) : zap.Field := zap.String MQMessageIDKey id

/-! ## Contexts -/

/-- A Go `interface{}` value: the dynamic types this package asserts on, and `other` for a
value of any other dynamic type (the nil interface included). -/
inductive Any
  | string (s : String)
  | fieldSlice (fs : Slice zap.Field)
  | other (tag : String)
  deriving DecidableEq, Repr

/-- A non-nil `context.Context`, by the values layered on it with `context.WithValue`. -/
inductive Context
  | background
  | withValue (parent : Context) (key : Key) (val : Any)
  deriving DecidableEq, Repr

/-- Go `ctx.Value(key)`: the nearest layer carrying `key`; `none` is the nil interface. -/
def Context.Value : Context → Key → Option Any
  | .background, _ => none
  | .withValue parent k v, key => if k = key then some v else parent.Value key

/-- Go `context.WithValue`. -/
def WithValue (ctx : Context) (key : Key) (val : Any) : Context := .withValue ctx key val

/-! ## logger.go -/

def parseLevel (caseRanges : Char → Char) (level : String) : zap.Level :=
  let l := ToLower caseRanges level
  if l = LevelDebug then zap.DebugLevel
  else if l = LevelInfo then zap.InfoLevel
  else if l = LevelWarn then zap.WarnLevel
  else if l = LevelError then zap.ErrorLevel
  else zap.InfoLevel

/-- Go `New`: the returned logger, which is also the new process-wide logger. The encoder and
the redirection of the standard library log are not part of the model. -/
def New (caseRanges : Char → Char) (level namespace_ : String) (options : List zap.Option) :
    zap.Logger :=
  let globalLevel := parseLevel caseRanges level
  let lowPriority := zap.LevelEnabler.lowPriority globalLevel
  let highPriority := zap.LevelEnabler.highPriority
  let core := [zap.Core.mk .Stderr highPriority, zap.Core.mk .Stdout lowPriority]
  let options := if options.length = 0 then [zap.Option.WithCaller true, zap.Option.AddCallerSkip 1]
    else options
  (zap.New core options).Named namespace_

def BindRequestID (ctx : Context) (requestID : String) : Context :=
  WithValue ctx RequestIDKey (.string requestID)

def BindFields (ctx : Context) (fields : Slice zap.Field) : Context :=
  match ctx.Value BindFieldsKey with
  | some (.fieldSlice (some existing)) =>
      WithValue ctx BindFieldsKey (.fieldSlice (goAppend existing fields))
  | _ => WithValue ctx BindFieldsKey (.fieldSlice fields)

def BindProcessID (ctx : Context) (processID : String) : Context :=
  WithValue ctx ProcessIDKey (.string processID)

/-- Go `GetProcessID`; `uuid` is what `uuid.NewString()` returns when it is called. -/
def GetProcessID (uuid : String) (ctx : Context) : String :=
  match ctx.Value ProcessIDKey with
  | some (.string processID) => if processID ≠ "" then processID else uuid
  | _ => uuid

/-- Go `FromCtx`; `zapLogger` is the process-wide logger, `ctx = none` the nil context. -/
def FromCtx (zapLogger : zap.Logger) (ctx : Option Context) (namespace_ : String) : zap.Logger :=
  let newLogger := zapLogger
  let newLogger :=
    match ctx with
    | none => newLogger
    | some ctx =>
      let newLogger :=
        match ctx.Value RequestIDKey with
        | some (.string ctxReqID) => newLogger.With [zap.String "request_id" ctxReqID]
        | _ => newLogger
      let newLogger :=
        match ctx.Value ProcessIDKey with
        | some (.string processID) => newLogger.With [zap.String "process_id" processID]
        | _ => newLogger
      match ctx.Value BindFieldsKey with
      | some (.fieldSlice bindFields) => newLogger.With bindFields.elems
      | _ => newLogger
  if namespace_ ≠ "" then newLogger.Named namespace_ else newLogger

/-! ## Readings of a context used to state the properties -/

/-- The bound-field list of a context: what the type assertion `.([]zap.Field)` on the value
under `BindFieldsKey` yields, empty when it fails. -/
def boundFields (ctx : Context) : List zap.Field :=
  match ctx.Value BindFieldsKey with
  | some (.fieldSlice fs) => fs.elems
  | _ => []

/-- The string bound under a key, when the value there is a string. -/
def boundString (ctx : Context) (key : Key) : Option String :=
  match ctx.Value key with
  | some (.string s) => some s
  | _ => none

/-- The field a bound identifier contributes to a logger: one string field under `name` when
an identifier is bound, none otherwise. -/
def correlationField (name : String) : Option String → List zap.Field
  | some v => [zap.String name v]
  | none => []

end logger

/-! ## amqp.go -/

namespace amqp

/-- Go `amqp.Table`, a non-nil `map[string]interface{}`. -/
abbrev Table := GoMap String logger.Any

/-- The parts of `amqp.Delivery` the package reads; `Headers = none` is the nil table, which
reads as an empty one. -/
structure Delivery where
  Headers : Option Table
  MessageId : String
  deriving DecidableEq, Repr

end amqp

namespace logger

def amqpDeliveryName : String := "x-log-process-id"

/-- Go `FromAMQP`; `ctx = none` is the nil context, `uuid` what `uuid.NewString()` returns. The
context built by the `BindFields` call is not assigned to anything, as in the source. -/
def FromAMQP (zapLogger : zap.Logger) (uuid : String) (ctx : Option Context) (e : amqp.Delivery)
    (namespace_ : String) : Context × zap.Logger :=
  let ctx := match ctx with
    | none => Context.background
    | some c => c
  let processID := match (e.Headers.getD []).get amqpDeliveryName with
    | some (.string s) => s
    | _ => uuid
  let _ := BindFields ctx (some [MQMessageID e.MessageId])
  let ctx := BindProcessID ctx processID
  (ctx, FromCtx zapLogger (some ctx) namespace_)

/-- Go `ToAMQPHeader`; `table = none` is the nil table. -/
def ToAMQPHeader (uuid : String) (ctx : Context) (table : Option amqp.Table) : amqp.Table :=
  let table := match table with
    | none => []
    | some t => t
  GoMap.set table amqpDeliveryName (.string (GetProcessID uuid ctx))

end logger

/-! ## net/http values -/

namespace http

/-- The bytes a MIME header key may hold without losing canonicalisation. -/
def validHeaderFieldByte (c : Char) : Bool :=
  c.isAlphanum || "!#$%&*+-.^_|~".data.contains c || c = Char.ofNat 39 || c = Char.ofNat 96

/-- The letter-case pass of `textproto.CanonicalMIMEHeaderKey`: a letter is upper case at the
start and after a hyphen, lower case elsewhere. -/
def canonicalCase : Bool → List Char → List Char
  | _, [] => []
  | upper, c :: cs =>
    let c := if upper then c.toUpper else c.toLower
    c :: canonicalCase (c = '-') cs

/-- Go `textproto.CanonicalMIMEHeaderKey`: a key holding a byte that is not valid in a header
field is returned unchanged. -/
def CanonicalMIMEHeaderKey (s : String) : String :=
  if s.data.all validHeaderFieldByte then String.mk (canonicalCase true s.data) else s

/-- Go `http.Header`, a non-nil `map[string][]string`. -/
abbrev Header := GoMap String (List String)

/-- Go `Header.Get`: the first value under the canonical key, or the empty string. -/
def Header.Get (h : Header) (key : String) : String :=
  match GoMap.get h (CanonicalMIMEHeaderKey key) with
  | some (v :: _) => v
  | _ => ""

/-- Go `Header.Set`: the canonical key is bound to the single value. -/
def Header.Set (h : Header) (key value : String) : Header :=
  GoMap.set h (CanonicalMIMEHeaderKey key) [value]

/-- Go `url.URL`, the parts read here. -/
structure URL where
  Path : String
  RawQuery : String
  deriving DecidableEq, Repr

/-- Go `http.Request`, the parts read here; `ctx = none` is a request made without a context. -/
structure Request where
  Method : String
  URL : URL
  Header : Header
  Body : Slice UInt8
  ctx : Option logger.Context
  deriving DecidableEq, Repr

/-- Go `Request.Context`: the background context stands in for a missing one. -/
def Request.Context (r : Request) : logger.Context :=
  match r.ctx with
  | some c => c
  | none => logger.Context.background

/-- Go `Request.WithContext`. -/
def Request.WithContext (r : Request) (ctx : logger.Context) : Request := { r with ctx := some ctx }

/-- Go `Request.UserAgent`. -/
def Request.UserAgent (r : Request) : String := r.Header.Get "User-Agent"

/-- Go `http.Response`, by status, headers and body. -/
structure Response where
  StatusCode : Int
  Header : Header
  Body : Slice UInt8
  deriving DecidableEq, Repr

/-- A Go `error`, by its message. -/
abbrev error := String

/-- Go `http.RoundTripper`: the response and the error of a call, either of which may be nil. -/
structure RoundTripper where
  RoundTrip : Request → Option Response × Option error

def StatusBadRequest : Int := 400
def StatusMultipleChoices : Int := 300

end http

/-- The two dump functions of `net/http/httputil` that the transport calls, each returning
the dump and an error. -/
structure httputil where
  DumpRequestOut : http.Request → Bool → Slice UInt8 × Option http.error
  DumpResponse : http.Response → Bool → Slice UInt8 × Option http.error

/-! ## instrumentation/httplog/httpTransport.go -/

namespace httplog

structure settings where
  Request : Bool
  RequestBody : Bool
  Response : Bool
  ResponseBody : Bool
  PassContext : Bool
  deriving DecidableEq, Repr

def defaultLogSetting : settings :=
  { Request := true, RequestBody := true, Response := true, ResponseBody := true,
    PassContext := true }

structure httpLogTransport where
  nextTransport : http.RoundTripper
  blackList : GoMap String settings
  defaultSetting : settings

def NewLogTransport (next : http.RoundTripper) (logReqBody logRespBody passContextFurther : Bool) :
    httpLogTransport :=
  { nextTransport := next,
    blackList := [],
    defaultSetting :=
      { Request := true, RequestBody := logReqBody, Response := true,
        ResponseBody := logRespBody, PassContext := passContextFurther } }

structure endpoint where
  Method : String
  URL : String
  deriving DecidableEq, Repr

def reqKey (caseRanges : Char → Char) (method path : String) : String :=
  ToLower caseRanges (method ++ Trim path '/')

def endpoint.toKey (caseRanges : Char → Char) (e : endpoint) : String :=
  reqKey caseRanges e.Method e.URL

def buildBlackList (method : String) (path : List String) : List endpoint :=
  path.map (fun p => { Method := method, URL := p })

/-- The implementations of the `Option` interface, each with its `blackList`. -/
inductive Option
  | skipOption (blackList : List endpoint)
  | skipReqBody (blackList : List endpoint)
  | skipResponseBody (blackList : List endpoint)
  | skipRequest (blackList : List endpoint)
  | skipResponse (blackList : List endpoint)
  | noContextPass (blackList : List endpoint)
  deriving DecidableEq, Repr

/-- The entry an `Apply` method starts from: the one in the table, or all flags set. -/
def prevOr (transport : httpLogTransport) (key : String) : settings :=
  match GoMap.get transport.blackList key with
  | some prev => prev
  | none =>
    { Request := true, RequestBody := true, Response := true, ResponseBody := true,
      PassContext := true }

/-- The `Apply` methods, one loop over the `blackList` each. -/
def Option.Apply (caseRanges : Char → Char) : Option → httpLogTransport → httpLogTransport
  | .skipOption blackList, transport =>
    blackList.foldl (fun transport e =>
      let key := e.toKey caseRanges
      let hidden : settings :=
        { Request := false, RequestBody := false, Response := false, ResponseBody := false,
          PassContext := false }
      { transport with blackList := GoMap.set transport.blackList key hidden }) transport
  | .skipReqBody blackList, transport =>
    blackList.foldl (fun transport e =>
      let key := e.toKey caseRanges
      let prev := prevOr transport key
      let prev := { prev with RequestBody := false }
      { transport with blackList := GoMap.set transport.blackList key prev }) transport
  | .skipResponseBody blackList, transport =>
    blackList.foldl (fun transport e =>
      let key := e.toKey caseRanges
      let prev := prevOr transport key
      let prev := { prev with RequestBody := false }
      { transport with blackList := GoMap.set transport.blackList key prev }) transport
  | .skipRequest blackList, transport =>
    blackList.foldl (fun transport e =>
      let key := e.toKey caseRanges
      let prev := prevOr transport key
      let prev := { prev with RequestBody := false }
      let prev := { prev with Request := false }
      { transport with blackList := GoMap.set transport.blackList key prev }) transport
  | .skipResponse blackList, transport =>
    blackList.foldl (fun transport e =>
      let key := e.toKey caseRanges
      let prev := prevOr transport key
      let prev := { prev with ResponseBody := false }
      let prev := { prev with Response := false }
      { transport with blackList := GoMap.set transport.blackList key prev }) transport
  | .noContextPass blackList, transport =>
    blackList.foldl (fun transport e =>
      let key := e.toKey caseRanges
      let prev := prevOr transport key
      let prev := { prev with PassContext := false }
      { transport with blackList := GoMap.set transport.blackList key prev }) transport

def New (caseRanges : Char → Char) (next : http.RoundTripper) (opts : List Option) :
    httpLogTransport :=
  let t : httpLogTransport :=
    { nextTransport := next, defaultSetting := defaultLogSetting, blackList := [] }
  opts.foldl (fun t opt => opt.Apply caseRanges t) t

def SkipLog (method : String) (paths : List String) : Option :=
  .skipOption (buildBlackList method paths)

def SkipReqBody (method : String) (paths : List String) : Option :=
  .skipReqBody (buildBlackList method paths)

def SkipRespBody (method : String) (paths : List String) : Option :=
  .skipResponseBody (buildBlackList method paths)

def SkipRequest (method : String) (paths : List String) : Option :=
  .skipRequest (buildBlackList method paths)

def SkipResponse (method : String) (paths : List String) : Option :=
  .skipReqBody (buildBlackList method paths)

def NoContext (method : String) (paths : List String) : Option :=
  .skipReqBody (buildBlackList method paths)

/-- The policy `RoundTrip` resolves for a request: the table entry under the request key, or
the default setting. -/
def httpLogTransport.setting (caseRanges : Char → Char) (t : httpLogTransport)
    (req : http.Request) : settings :=
  match GoMap.get t.blackList (reqKey caseRanges req.Method req.URL.Path) with
  | some setting => setting
  | none => t.defaultSetting

/-- A call made to `net/http/httputil`, with the value of its `body` argument. -/
inductive DumpCall
  | DumpRequestOut (body : Bool)
  | DumpResponse (body : Bool)
  deriving DecidableEq, Repr

/-- What a call of `RoundTrip` does: the pair it returns, the request as handed to the wrapped
transport, the calls made to `httputil`, the fields of the debug record and the writes of that
record. -/
structure RoundTripResult where
  resp : Nilable http.Response
  err : Nilable http.error
  sent : http.Request
  calls : List DumpCall
  fields : List zap.Field
  logged : List zap.Write

end httplog

namespace httplog

/-- Go `httpLogTransport.RoundTrip`. `zapLogger` is the process-wide logger, `uuidProcess` what
`uuid.NewString()` returns inside `GetProcessID` should it be called, `uuidRequest` what it
returns for the request-id header. -/
def httpLogTransport.RoundTrip (caseRanges : Char → Char) (zapLogger : zap.Logger)
    (uuidProcess uuidRequest : String)
    (dump : httputil) (t : httpLogTransport) (req : http.Request) : RoundTripResult :=
  let ctx := req.Context
  let l := logger.FromCtx zapLogger (some ctx) "httplog"
  let setting := t.setting caseRanges req
  let req :=
    if setting.PassContext then
      let h := req.Header.Set logger.HTTPHeaderProcessID (logger.GetProcessID uuidProcess ctx)
      let h := h.Set logger.HTTPHeaderRequestID uuidRequest
      { req with Header := h }
    else req
  let fields : List zap.Field := []
  let errs : List http.error := []
  let calls : List DumpCall := []
  let (fields, errs, calls) :=
    if setting.Request then
      match dump.DumpRequestOut req setting.RequestBody with
      | (body, none) =>
        (fields ++ [logger.RequestDump body], errs, calls ++ [.DumpRequestOut setting.RequestBody])
      | (_, some err) => (fields, errs ++ [err], calls ++ [.DumpRequestOut setting.RequestBody])
    else (fields ++ [zap.String logger.RequestDumpKey "hidden"], errs, calls)
  let (resp, err) := t.nextTransport.RoundTrip req
  let errs := match err with
    | some e => errs ++ [e]
    | none => errs
  let (fields, errs, calls) :=
    if setting.Response then
      match resp with
      | some r =>
        match dump.DumpResponse r setting.ResponseBody with
        | (body, none) =>
          (fields ++ [logger.ResponseDump body], errs, calls ++ [.DumpResponse setting.ResponseBody])
        | (_, some err) => (fields, errs ++ [err], calls ++ [.DumpResponse setting.ResponseBody])
      | none => (fields ++ [logger.ResponseDump none], errs, calls)
    else (fields ++ [zap.String logger.ResponseDumpKey "hidden"], errs, calls)
  let fields := fields ++ [zap.Errors "errors" errs]
  let logged := if fields.length > 0 then l.Debug "http request sent" fields else []
  { resp := resp, err := err, sent := req, calls := calls, fields := fields, logged := logged }

end httplog

/-! ## instrumentation/ginlog/middleware.go -/

namespace gin

/-- Go `gin.Context`, the parts the middleware reads and writes: the request, the key store, the
errors recorded by handlers, the status written so far and the client address. -/
structure Context where
  Request : http.Request
  Keys : GoMap String logger.Any
  Errors : List String
  Status : Int
  ClientIP : String
  deriving DecidableEq, Repr

/-- Go `Context.GetHeader`. -/
def Context.GetHeader (c : Context) (key : String) : String := c.Request.Header.Get key

/-- Go `Context.Set`. -/
def Context.Set (c : Context) (key : String) (value : logger.Any) : Context :=
  { c with Keys := GoMap.set c.Keys key value }

end gin

namespace ginlog

/-- The string under a key of this package, as `string(key)` gives it. -/
def keyString : logger.Key → String
  | .correlationIDCtxKey s => s
  | .foreign s => s

/-- The closure `logFunc` of `LogExcept`: the method of the logger picked by status code. -/
def logFunc (l : zap.Logger) (httpCode : Int) : String → List zap.Field → List zap.Write :=
  if httpCode ≥ http.StatusBadRequest then l.Warn
  else if httpCode ≥ http.StatusMultipleChoices then l.Info
  else l.Debug

/-- What one run of the middleware does: the gin context as handed to the rest of the chain,
the gin context when the middleware returns, and the writes of the records it emits. -/
structure Run where
  handed : gin.Context
  final : gin.Context
  logged : List zap.Write

/-- The handler returned by `LogExcept skipPath`, run on `c`. `Next` is the rest of the handler
chain, `uuidProcess` and `uuidRequest` are what `uuid.NewString()` returns at its two call
sites, `latency` the measured duration. -/
def LogExcept (skipPath : List String) (zapLogger : zap.Logger) (uuidProcess uuidRequest : String)
    (latency : Int) (Next : gin.Context → gin.Context) (c : gin.Context) : Run :=
  let processID := c.GetHeader logger.HTTPHeaderProcessID
  let processID := if processID = "" then uuidProcess else processID
  let ctx := logger.BindProcessID c.Request.Context processID
  let requestID := c.GetHeader logger.HTTPHeaderRequestID
  let requestID := if requestID = "" then uuidRequest else requestID
  let ctx := logger.BindRequestID ctx requestID
  let c := c.Set (keyString logger.ProcessIDKey) (.string processID)
  let c := c.Set (keyString logger.RequestIDKey) (.string requestID)
  let path := c.Request.URL.Path
  let query := c.Request.URL.RawQuery
  let c := { c with Request := c.Request.WithContext ctx }
  let handed := c
  let c := Next c
  let logged :=
    if ¬ (path ∈ skipPath) then
      let l := logger.FromCtx zapLogger (some ctx) "gin"
      if c.Errors.length > 0 then
        c.Errors.flatMap (fun e => l.Error e [])
      else
        let httpCode := c.Status
        let fields := [
          zap.Int "http_code" httpCode,
          zap.String "method" c.Request.Method,
          zap.String "path" path,
          zap.String "query" query,
          zap.String "ip" c.ClientIP,
          zap.String "user-agent" c.Request.UserAgent,
          zap.Duration "latency" latency]
        logFunc l httpCode path fields
    else []
  { handed := handed, final := c, logged := logged }

/-- Go `Log`. -/
def Log (zapLogger : zap.Logger) (uuidProcess uuidRequest : String) (latency : Int)
    (Next : gin.Context → gin.Context) (c : gin.Context) : Run :=
  LogExcept [] zapLogger uuidProcess uuidRequest latency Next c

end ginlog

/-! ## Example values -/

namespace example_values

/-- A wrapped transport answering every request with a 200 response and no error. -/
def okTransport : http.RoundTripper :=
  ⟨fun _ => (some ⟨200, [], some [111, 107]⟩, none)⟩

/-- Dump functions that never fail: the dump is the body when asked for it, nil otherwise. -/
def bodyDump : httputil :=
  { DumpRequestOut := fun r withBody => (cond withBody r.Body none, none),
    DumpResponse := fun r withBody => (cond withBody r.Body none, none) }

/-- An outbound `POST` request to `path` made with the context `ctx`. -/
def post (path : String) (ctx : Option logger.Context) : http.Request :=
  ⟨"POST", ⟨path, ""⟩, [], some [1, 2, 3], ctx⟩

/-- An inbound `GET /` request carrying the process-id header `abc` and no request-id header. -/
def inbound : gin.Context :=
  ⟨⟨"GET", ⟨"/", ""⟩, [("X-Log-Process-Id", ["abc"])], none, none⟩, [], [], 200, "10.0.0.1"⟩

/-- A case table holding two entries of the table of the Go package `unicode`: the Kelvin
sign U+212A lower-cases to `k` and the dotted capital I U+0130 to `i`; every other rune is
left as it is. -/
def caseRanges (r : Char) : Char :=
  if r.toNat = 0x212A then 'k' else if r.toNat = 0x0130 then 'i' else r

/-- The transport of the example: `SkipReqBody(POST, /skip-body)` as the only option. -/
def skipTransport : httplog.httpLogTransport :=
  httplog.New caseRanges okTransport [httplog.SkipReqBody "POST" ["/skip-body"]]

/-- The logger built by `New("debug", "app")`. -/
def debugLogger : zap.Logger := logger.New caseRanges "debug" "app" []

/-- A handler chain that answers with the process ID it finds in the context of the request
it is run on, written into the client address field, and records no error. -/
def observe (c : gin.Context) : gin.Context :=
  { c with ClientIP := logger.GetProcessID "generated" c.Request.Context }

/-- A handler chain that records no error and answers with the status `status`. -/
def respond (status : Int) (c : gin.Context) : gin.Context := { c with Status := status }

end example_values

/-! ## Slices with their backing arrays

The model of `BindFields` above reads a slice by content. The model below keeps what a Go
slice is: a header pointing into a backing array that other headers may share. -/

namespace backing

/-- A slice header: the backing array it starts at, its length and its capacity. -/
structure SliceHeader where
  array : Nat
  len : Nat
  cap : Nat
  deriving DecidableEq, Repr

/-- The backing arrays allocated so far, array `i` being the `i`-th entry; an array is kept up
to the last cell written. -/
abbrev Heap := List (List zap.Field)

/-- The cells of a backing array. -/
def Heap.cells (h : Heap) (array : Nat) : List zap.Field := h.getD array []

/-- The elements of a slice: the first `len` cells of its array, none for the nil slice. -/
def Heap.elems (h : Heap) : Nilable SliceHeader → List zap.Field
  | none => []
  | some s => (h.cells s.array).take s.len

/-- Allocation of a fresh backing array holding `cells`. -/
def Heap.alloc (h : Heap) (cells : List zap.Field) : Nat × Heap := (h.length, h ++ [cells])

/-- Assignment of `xs` to the cells of an array from index `pos` on. -/
def Heap.write (h : Heap) (array pos : Nat) (xs : List zap.Field) : Heap :=
  h.set array ((h.cells array).take pos ++ xs ++ (h.cells array).drop (pos + xs.length))

/-- Go `append(s, t...)` for a non-nil `s`: the new elements are written after the `len` cells
of `s` in its own array when the capacity suffices, and the elements are copied to a fresh
array of capacity `grow s.cap n` otherwise. -/
def append (grow : Nat → Nat → Nat) (h : Heap) (s : SliceHeader) (t : Nilable SliceHeader) :
    SliceHeader × Heap :=
  let xs := h.elems t
  let n := s.len + xs.length
  if n ≤ s.cap then (⟨s.array, n, s.cap⟩, h.write s.array s.len xs)
  else
    let fresh := h.alloc (h.elems (some s) ++ xs)
    (⟨fresh.1, n, grow s.cap n⟩, fresh.2)

/-- The growth of the Go runtime for capacities below 256, before rounding up to a size
class: the capacity doubles unless more is needed. -/
def doubling (oldCap newLen : Nat) : Nat := if newLen > 2 * oldCap then newLen else 2 * oldCap

/-- A Go `interface{}` value as in `logger.Any`, a field slice being kept by its header. -/
inductive Any
  | string (s : String)
  | fieldSlice (s : Nilable SliceHeader)
  | other (tag : String)
  deriving DecidableEq, Repr

/-- A non-nil `context.Context`, by the values layered on it. -/
inductive Context
  | background
  | withValue (parent : Context) (key : logger.Key) (val : Any)
  deriving DecidableEq, Repr

/-- Go `ctx.Value(key)`. -/
def Context.Value : Context → logger.Key → Option Any
  | .background, _ => none
  | .withValue parent k v, key => if k = key then some v else parent.Value key

/-- Go `BindFields` of logger.go on slice headers: the derived context and the heap after the
call. -/
def BindFields (grow : Nat → Nat → Nat) (h : Heap) (ctx : Context)
    (fields : Nilable SliceHeader) : Context × Heap :=
  match ctx.Value logger.BindFieldsKey with
  | some (.fieldSlice (some existing)) =>
    let r := append grow h existing fields
    (.withValue ctx logger.BindFieldsKey (.fieldSlice (some r.1)), r.2)
  | _ => (.withValue ctx logger.BindFieldsKey (.fieldSlice fields), h)

/-- The call `BindFields(ctx, f1, ..., fn)` with the fields written out: the arguments arrive
in a fresh slice of length and capacity `n`, the nil slice when there are none. -/
def BindFieldsArgs (grow : Nat → Nat → Nat) (h : Heap) (ctx : Context) (args : List zap.Field) :
    Context × Heap :=
  match args with
  | [] => BindFields grow h ctx none
  | _ =>
    let fresh := h.alloc args
    BindFields grow fresh.2 ctx (some ⟨fresh.1, args.length, args.length⟩)

/-- The bound-field list of a context as `FromCtx` reads it at the heap `h`. -/
def boundFields (h : Heap) (ctx : Context) : List zap.Field :=
  match ctx.Value logger.BindFieldsKey with
  | some (.fieldSlice s) => h.elems s
  | _ => []

/-- The chain `c1 = BindFields(Background, f1, f2, f3)`, `c = BindFields(c1, g)` on an empty
heap: the context `c` and the heap it leaves. -/
def chain : Context × Heap :=
  let c1 := BindFieldsArgs doubling [] Context.background
    [zap.String "f1" "1", zap.String "f2" "2", zap.String "f3" "3"]
  BindFieldsArgs doubling c1.2 c1.1 [zap.String "g" "4"]

/-- The child `a = BindFields(c, x)` of the context `c` of `chain`. -/
def childA : Context × Heap := BindFieldsArgs doubling chain.2 chain.1 [zap.String "x" "5"]

/-- The child `b = BindFields(c, y)` of the same context `c`, created after `a`. -/
def childB : Context × Heap := BindFieldsArgs doubling childA.2 chain.1 [zap.String "y" "6"]

end backing

/-! ## Theorems -/

namespace logger

/-! ### Helper lemmas on contexts -/

theorem value_withValue_self (ctx : Context) (key : Key) (val : Any) :
    (WithValue ctx key val).Value key = some val := by
  simp [WithValue, Context.Value]

theorem value_withValue_other (ctx : Context) (k key : Key) (val : Any) (h : k ≠ key) :
    (WithValue ctx k val).Value key = ctx.Value key := by
  simp [WithValue, Context.Value, h]

theorem value_bindFields (ctx : Context) (fs : Slice zap.Field) :
    ∃ s : Slice zap.Field, (BindFields ctx fs).Value BindFieldsKey = some (.fieldSlice s) ∧
      s.elems = boundFields ctx ++ fs.elems := by
  unfold BindFields boundFields
  split
  · next existing h =>
    refine ⟨goAppend existing fs, value_withValue_self _ _ _, ?_⟩
    simp [h, goAppend, Slice.elems]
  · next hne =>
    refine ⟨fs, value_withValue_self _ _ _, ?_⟩
    split
    · next s h =>
      cases s with
      | none => simp [Slice.elems]
      | some existing => exact absurd h (hne existing)
    · simp

theorem boundFields_bindFields (ctx : Context) (fs : Slice zap.Field) :
    boundFields (BindFields ctx fs) = boundFields ctx ++ fs.elems := by
  obtain ⟨s, hv, hs⟩ := value_bindFields ctx fs
  simp only [boundFields] at hs ⊢
  rw [hv]
  exact hs

theorem boundFields_chain (steps : List (Slice zap.Field)) (ctx : Context) :
    boundFields (steps.foldl BindFields ctx) = boundFields ctx ++ (steps.map Slice.elems).flatten := by
  induction steps generalizing ctx with
  | nil => simp
  | cons fs rest ih =>
    simp only [List.foldl_cons, List.map_cons, List.flatten_cons]
    rw [ih, boundFields_bindFields, List.append_assoc]

/-- C1: the bound-field list stored by `BindFields ctx fs` under `BindFieldsKey` is a field
slice whose content is the bound-field list of `ctx` (empty when `ctx` has none) followed by
`fs` in the given order; along a chain of `BindFields` calls the list is the concatenation of
the steps and its length is the sum of the numbers of fields added; binding the three fields
of `TestBindFields` on an empty context gives a list of length 3. -/
theorem BindFields_appends :
    (∀ (ctx : Context) (fs : Slice zap.Field),
      (∃ s : Slice zap.Field, (BindFields ctx fs).Value BindFieldsKey = some (.fieldSlice s) ∧
        s.elems = boundFields ctx ++ fs.elems) ∧
      boundFields (BindFields ctx fs) = boundFields ctx ++ fs.elems) ∧
    (∀ (ctx : Context) (steps : List (Slice zap.Field)),
      boundFields (steps.foldl BindFields ctx)
        = boundFields ctx ++ (steps.map Slice.elems).flatten ∧
      (boundFields (steps.foldl BindFields ctx)).length
        = (boundFields ctx).length + (steps.map Slice.len).sum) ∧
    (∀ f1 f2 f3 : zap.Field,
      (boundFields (BindFields Context.background (some [f1, f2, f3]))).length = 3) ∧
    (boundFields (BindFields Context.background
        (some [ProspectID "1", RequestDump (some [100, 117, 109, 112, 32, 104, 101, 114, 101]), ApplicationID "app_id"]))).length
      = 3 := by
  refine ⟨fun ctx fs => ⟨value_bindFields ctx fs, boundFields_bindFields ctx fs⟩, ?_, ?_, ?_⟩
  · intro ctx steps
    refine ⟨boundFields_chain steps ctx, ?_⟩
    rw [boundFields_chain, List.length_append, List.length_flatten, List.map_map]
    rfl
  · intro f1 f2 f3
    rw [boundFields_bindFields]
    rfl
  · rw [boundFields_bindFields]
    rfl

end logger

/-! ### Go maps -/

theorem GoMap.get_set_self {κ ν : Type} [DecidableEq κ] (m : GoMap κ ν) (k : κ) (v : ν) :
    GoMap.get (GoMap.set m k v) k = some v := by
  simp [GoMap.set, GoMap.get]

theorem GoMap.get_filter_ne {κ ν : Type} [DecidableEq κ] (m : GoMap κ ν) (k q : κ) (h : k ≠ q) :
    GoMap.get (m.filter (fun e => !decide (e.1 = k))) q = GoMap.get m q := by
  induction m with
  | nil => rfl
  | cons e rest ih =>
    obtain ⟨a, b⟩ := e
    by_cases hak : a = k
    · have haq : a ≠ q := fun hq => h (hak ▸ hq)
      simp only [List.filter_cons, hak, decide_True, Bool.not_true, GoMap.get]
      simp only [Bool.false_eq_true, if_false]
      rw [ih, if_neg (hak ▸ haq)]
    · simp only [List.filter_cons, hak, decide_False, Bool.not_false, if_true, GoMap.get]
      rw [ih]

theorem GoMap.get_set_other {κ ν : Type} [DecidableEq κ] (m : GoMap κ ν) (k q : κ) (v : ν)
    (h : k ≠ q) : GoMap.get (GoMap.set m k v) q = GoMap.get m q := by
  simp only [GoMap.set, GoMap.get, if_neg h]
  exact GoMap.get_filter_ne m k q h

namespace logger

/-! ### The message-queue adapter -/

theorem boundString_bindProcessID (ctx : Context) (p : String) :
    boundString (BindProcessID ctx p) ProcessIDKey = some p := by
  simp [boundString, BindProcessID, value_withValue_self]

theorem boundFields_bindProcessID (ctx : Context) (p : String) :
    boundFields (BindProcessID ctx p) = boundFields ctx := by
  simp only [boundFields, BindProcessID]
  rw [value_withValue_other _ _ _ _ (by decide)]

/-- C2: the context returned by `FromAMQP` carries the resolved process ID, but its
bound-field list is the one of the context it was given: the context built by
`BindFields(ctx, MQMessageID(e.MessageId))` is dropped. With no prior context the list is
empty, and for the delivery with message id `m1` and header process id `p1` the returned logger
has the single field `process_id=p1` and no `mq_message_id` field. -/
theorem FromAMQP_drops_mq_message_id (caseRanges : Char → Char) :
    (∀ (z : zap.Logger) (uuid : String) (ctx : Context) (e : amqp.Delivery) (ns : String),
      boundFields (FromAMQP z uuid (some ctx) e ns).1 = boundFields ctx) ∧
    (∀ (z : zap.Logger) (uuid : String) (e : amqp.Delivery) (ns : String),
      boundFields (FromAMQP z uuid none e ns).1 = [] ∧
      (FromAMQP z uuid none e ns).1.Value BindFieldsKey = none) ∧
    boundString (FromAMQP (New caseRanges "debug" "app" []) "u" none
        ⟨some [(amqpDeliveryName, .string "p1")], "m1"⟩ "consumer").1 ProcessIDKey = some "p1" ∧
    (FromAMQP (New caseRanges "debug" "app" []) "u" none
        ⟨some [(amqpDeliveryName, .string "p1")], "m1"⟩ "consumer").2.fields
      = [zap.String "process_id" "p1"] ∧
    MQMessageID "m1" ∉ (FromAMQP (New caseRanges "debug" "app" []) "u" none
        ⟨some [(amqpDeliveryName, .string "p1")], "m1"⟩ "consumer").2.fields := by
  have hfields : (FromAMQP (New caseRanges "debug" "app" []) "u" none
      ⟨some [(amqpDeliveryName, .string "p1")], "m1"⟩ "consumer").2.fields
      = [zap.String "process_id" "p1"] := rfl
  refine ⟨?_, ?_, rfl, hfields, by rw [hfields]; decide⟩
  · intro z uuid ctx e ns
    simp only [FromAMQP]
    exact boundFields_bindProcessID _ _
  · intro z uuid e ns
    refine ⟨?_, ?_⟩
    · simp only [FromAMQP]
      rw [boundFields_bindProcessID]
      rfl
    · simp only [FromAMQP, BindProcessID]
      rw [value_withValue_other _ _ _ _ (by decide)]
      rfl

end logger

namespace httplog

/-! ### Options of the HTTP client transport -/

theorem setting_single (caseRanges : Char → Char) (next : http.RoundTripper) (k : String) (v ds : settings)
    (req : http.Request) (h : reqKey caseRanges req.Method req.URL.Path = k) :
    httpLogTransport.setting caseRanges ⟨next, [(k, v)], ds⟩ req = v := by
  simp [httpLogTransport.setting, GoMap.get, h]

/-- C3: with `SkipRespBody(m, p)`, `SkipResponse(m, p)` or `NoContext(m, p)` as the only
option, a request with method `m` and path `p` resolves to the policy with `RequestBody`
cleared and the four other flags set: the response body, the response and the correlation
headers stay enabled. The `Apply` methods of `skipResponse` and `noContextPass`, which no
constructor returns, are the ones that clear `Response`, `ResponseBody` and `PassContext`.
The last conjunct is the `SkipResponse` line of the example program. -/
theorem Skip_options_clear_RequestBody (caseRanges : Char → Char) (next : http.RoundTripper) (m p q : String)
    (h : http.Header) (b : Slice UInt8) (c : Nilable logger.Context) :
    (New caseRanges next [SkipRespBody m [p]]).setting caseRanges ⟨m, ⟨p, q⟩, h, b, c⟩
      = ⟨true, false, true, true, true⟩ ∧
    (New caseRanges next [SkipResponse m [p]]).setting caseRanges ⟨m, ⟨p, q⟩, h, b, c⟩
      = ⟨true, false, true, true, true⟩ ∧
    (New caseRanges next [NoContext m [p]]).setting caseRanges ⟨m, ⟨p, q⟩, h, b, c⟩
      = ⟨true, false, true, true, true⟩ ∧
    (New caseRanges next [Option.skipResponse (buildBlackList m [p])]).setting caseRanges
        ⟨m, ⟨p, q⟩, h, b, c⟩
      = ⟨true, true, false, false, true⟩ ∧
    (New caseRanges next [Option.noContextPass (buildBlackList m [p])]).setting caseRanges
        ⟨m, ⟨p, q⟩, h, b, c⟩
      = ⟨true, true, true, true, false⟩ ∧
    (New caseRanges example_values.okTransport
        [SkipResponse "GET" ["/do-not-log-response-at-all"]]).setting caseRanges
        ⟨"GET", ⟨"/do-not-log-response-at-all", ""⟩, [], none, none⟩
      = ⟨true, false, true, true, true⟩ := by
  refine ⟨?_, ?_, ?_, ?_, ?_, ?_⟩ <;> exact setting_single caseRanges _ _ _ _ _ rfl

/-- C4: `RoundTrip` returns the pair that the wrapped transport returned for the request it
was handed, whatever the policy, the dump results, the response and the error are; the request
handed on is the incoming one, with the two correlation headers set when the policy passes the
context. In particular a wrapped transport answering `(resp, err)` makes `RoundTrip` return
`(resp, err)`. -/
theorem RoundTrip_returns_transport_outcome (caseRanges : Char → Char) :
    (∀ (z : zap.Logger) (uP uR : String) (dump : httputil) (t : httpLogTransport)
        (req : http.Request),
      ((t.RoundTrip caseRanges z uP uR dump req).resp,
       (t.RoundTrip caseRanges z uP uR dump req).err)
        = t.nextTransport.RoundTrip (t.RoundTrip caseRanges z uP uR dump req).sent ∧
      (t.RoundTrip caseRanges z uP uR dump req).sent
        = if (t.setting caseRanges req).PassContext then
            { req with
              Header := ((req.Header.Set logger.HTTPHeaderProcessID
                (logger.GetProcessID uP req.Context)).Set logger.HTTPHeaderRequestID uR) }
          else req) ∧
    (∀ (z : zap.Logger) (uP uR : String) (dump : httputil) (bl : GoMap String settings)
        (ds : settings) (req : http.Request) (resp : Nilable http.Response)
        (err : Nilable http.error),
      ((httpLogTransport.RoundTrip caseRanges z uP uR dump ⟨⟨fun _ => (resp, err)⟩, bl, ds⟩
          req).resp,
       (httpLogTransport.RoundTrip caseRanges z uP uR dump ⟨⟨fun _ => (resp, err)⟩, bl, ds⟩
          req).err)
        = (resp, err)) := by
  refine ⟨fun z uP uR dump t req => ⟨rfl, rfl⟩, fun z uP uR dump bl ds req resp err => rfl⟩

end httplog

namespace logger

/-! ### Process ID lookup and the message round trip -/

theorem GetProcessID_eq (uuid : String) (ctx : Context) :
    GetProcessID uuid ctx
      = match boundString ctx ProcessIDKey with
        | some p => if p = "" then uuid else p
        | none => uuid := by
  unfold GetProcessID boundString
  rcases h : ctx.Value ProcessIDKey with _ | v
  · rfl
  · cases v with
    | string p => by_cases hp : p = "" <;> simp [hp]
    | fieldSlice fs => rfl
    | other tag => rfl

theorem GetProcessID_bindProcessID (uuid : String) (ctx : Context) (p : String) (hp : p ≠ "") :
    GetProcessID uuid (BindProcessID ctx p) = p := by
  rw [GetProcessID_eq, boundString_bindProcessID]
  simp [hp]

/-- C5: a delivery whose headers are `ToAMQPHeader(BindProcessID(ctx, p), t)` with `p`
non-empty, consumed by `FromAMQP` (with no prior context, or with any), yields a context whose
process ID as read by `GetProcessID` is `p`, for every table `t`, the nil table included. -/
theorem amqp_process_id_roundtrip (p : String) (hp : p ≠ "") (z : zap.Logger)
    (uPublish uConsume uRead : String) (ctx : Context) (t : Option amqp.Table)
    (prior : Option Context) (messageId ns : String) :
    GetProcessID uRead
        (FromAMQP z uConsume prior
          ⟨some (ToAMQPHeader uPublish (BindProcessID ctx p) t), messageId⟩ ns).1 = p ∧
    boundString
        (FromAMQP z uConsume prior
          ⟨some (ToAMQPHeader uPublish (BindProcessID ctx p) t), messageId⟩ ns).1 ProcessIDKey
      = some p := by
  have hget : GoMap.get (ToAMQPHeader uPublish (BindProcessID ctx p) t) amqpDeliveryName
      = some (.string p) := by
    simp only [ToAMQPHeader]
    rw [GoMap.get_set_self, GetProcessID_bindProcessID _ _ _ hp]
  simp only [FromAMQP, Option.getD, hget]
  exact ⟨GetProcessID_bindProcessID _ _ _ hp, boundString_bindProcessID _ _⟩

/-- Witness of C5 at `p = "p1"`, published from the background context into the nil table. -/
theorem amqp_process_id_roundtrip_witness :
    "p1" ≠ "" ∧
    GetProcessID "u3"
        (FromAMQP zap.NewNop "u2" none
          ⟨some (ToAMQPHeader "u1" (BindProcessID Context.background "p1") none), "m1"⟩ "ns").1
      = "p1" :=
  ⟨by decide,
   (amqp_process_id_roundtrip "p1" (by decide) zap.NewNop "u1" "u2" "u3" Context.background none
      none "m1" "ns").1⟩

/-! ### Logger resolution -/

theorem With_eq (l : zap.Logger) (fs : List zap.Field) :
    l.With fs = { l with fields := l.fields ++ fs } := by
  unfold zap.Logger.With
  split
  · next h =>
    have : fs = [] := List.length_eq_zero.mp h
    subst this
    simp
  · rfl

theorem Named_empty (l : zap.Logger) : l.Named "" = l := by
  simp [zap.Logger.Named]

theorem FromCtx_some (z : zap.Logger) (ctx : Context) (ns : String) :
    FromCtx z (some ctx) ns
      = zap.Logger.Named
          { z with fields := z.fields ++ correlationField "request_id" (boundString ctx RequestIDKey)
              ++ correlationField "process_id" (boundString ctx ProcessIDKey)
              ++ boundFields ctx } ns := by
  have hns : ∀ l : zap.Logger, (if ns ≠ "" then l.Named ns else l) = l.Named ns := by
    intro l
    by_cases h : ns = ""
    · subst h; simp [Named_empty]
    · simp [h]
  simp only [FromCtx, hns]
  congr 1
  unfold boundString boundFields
  rcases ctx.Value RequestIDKey with _ | (r | f1 | t1) <;>
    rcases ctx.Value ProcessIDKey with _ | (q | f2 | t2) <;>
    rcases ctx.Value BindFieldsKey with _ | (f | f3 | t3) <;>
    simp [With_eq, correlationField]

end logger

namespace logger

theorem Named_fields (l : zap.Logger) (s : String) : (l.Named s).fields = l.fields := by
  unfold zap.Logger.Named
  split_ifs <;> rfl

theorem Named_cores (l : zap.Logger) (s : String) : (l.Named s).cores = l.cores := by
  unfold zap.Logger.Named
  split_ifs <;> rfl

/-- C6: the logger `FromCtx ctx ns` is the process-wide logger with, added to its fields in
this order, a `request_id` field when a request ID is bound in `ctx` (none otherwise), a
`process_id` field when a process ID is bound (none otherwise) and the bound-field list of
`ctx`, then named under `ns`. For the nil context and for the empty context it is the
process-wide logger named under `ns`, with no field added. For `RequestID = r1`,
`ProcessID = p1` and the bound field `k = v` the added fields are `request_id=r1`,
`process_id=p1`, `k=v`, and a record emitted through that logger carries them. -/
theorem FromCtx_attaches_correlation (caseRanges : Char → Char) (z : zap.Logger) (ctx : Context) (ns : String) :
    FromCtx z (some ctx) ns
      = zap.Logger.Named
          { z with fields := z.fields ++ correlationField "request_id" (boundString ctx RequestIDKey)
              ++ correlationField "process_id" (boundString ctx ProcessIDKey)
              ++ boundFields ctx } ns ∧
    (FromCtx z (some ctx) ns).fields
      = z.fields ++ correlationField "request_id" (boundString ctx RequestIDKey)
          ++ correlationField "process_id" (boundString ctx ProcessIDKey) ++ boundFields ctx ∧
    FromCtx z none ns = z.Named ns ∧
    FromCtx z (some Context.background) ns = z.Named ns ∧
    (FromCtx z (some (BindFields (BindProcessID (BindRequestID Context.background "r1") "p1")
        (some [zap.String "k" "v"]))) ns).fields
      = z.fields ++ [zap.String "request_id" "r1", zap.String "process_id" "p1",
          zap.String "k" "v"] ∧
    (FromCtx (New caseRanges "debug" "app" []) (some (BindFields
        (BindProcessID (BindRequestID Context.background "r1") "p1")
        (some [zap.String "k" "v"]))) "rest").Info "hello" []
      = [⟨.Stdout, ⟨zap.InfoLevel, "app.rest", "hello",
          [zap.String "request_id" "r1", zap.String "process_id" "p1", zap.String "k" "v"]⟩⟩] := by
  have hnil : FromCtx z none ns = z.Named ns := by
    by_cases h : ns = ""
    · subst h; simp [FromCtx, Named_empty]
    · simp [FromCtx, h]
  refine ⟨FromCtx_some z ctx ns, ?_, hnil, ?_, ?_, rfl⟩
  · rw [FromCtx_some, Named_fields]
  · rw [FromCtx_some]
    simp [boundString, boundFields, Context.Value, correlationField]
  · rw [FromCtx_some, Named_fields]
    have h1 : boundString (BindFields (BindProcessID (BindRequestID Context.background "r1") "p1")
        (some [zap.String "k" "v"])) RequestIDKey = some "r1" := by decide
    have h2 : boundString (BindFields (BindProcessID (BindRequestID Context.background "r1") "p1")
        (some [zap.String "k" "v"])) ProcessIDKey = some "p1" := by decide
    have h3 : boundFields (BindFields (BindProcessID (BindRequestID Context.background "r1") "p1")
        (some [zap.String "k" "v"])) = [zap.String "k" "v"] := by decide
    rw [h1, h2, h3]
    simp [correlationField]

/-- C7: `GetProcessID ctx` returns the process ID bound in `ctx` when one is bound and
non-empty, and the generated identifier when none is bound or the empty string is bound; with
a non-empty generated identifier the result is never empty. The call returns a string only and
builds no context: on a context without a usable process ID every call returns the identifier
generated for that call, so nothing was stored by an earlier one. -/
theorem GetProcessID_bound_or_generated (uuid : String) (ctx : Context) (h : uuid ≠ "") :
    (∀ p : String, boundString ctx ProcessIDKey = some p → p ≠ "" → GetProcessID uuid ctx = p) ∧
    (boundString ctx ProcessIDKey = none ∨ boundString ctx ProcessIDKey = some "" →
      GetProcessID uuid ctx = uuid ∧ ∀ later : String, GetProcessID later ctx = later) ∧
    GetProcessID uuid ctx ≠ "" := by
  refine ⟨?_, ?_, ?_⟩
  · intro p hb hp
    rw [GetProcessID_eq, hb]
    simp [hp]
  · intro hb
    have key : ∀ u : String, GetProcessID u ctx = u := by
      intro u
      rw [GetProcessID_eq]
      rcases hb with hb | hb <;> simp [hb]
    exact ⟨key uuid, key⟩
  · rw [GetProcessID_eq]
    rcases boundString ctx ProcessIDKey with _ | p
    · exact h
    · by_cases hp : p = "" <;> simp [hp, h]

/-- Witness of C7: a context bound to `p1`, and the empty context. -/
theorem GetProcessID_bound_or_generated_witness :
    "u1" ≠ "" ∧
    boundString (BindProcessID Context.background "p1") ProcessIDKey = some "p1" ∧
    GetProcessID "u1" (BindProcessID Context.background "p1") = "p1" ∧
    boundString Context.background ProcessIDKey = none ∧
    GetProcessID "u1" Context.background = "u1" ∧
    GetProcessID "u1" Context.background ≠ "" :=
  ⟨by decide, by decide,
   (GetProcessID_bound_or_generated "u1" (BindProcessID Context.background "p1") (by decide)).1
     "p1" (by decide) (by decide),
   by decide,
   ((GetProcessID_bound_or_generated "u1" Context.background (by decide)).2.1
     (Or.inl (by decide))).1,
   (GetProcessID_bound_or_generated "u1" Context.background (by decide)).2.2⟩

/-! ### The logger factory -/

theorem zap_New_cores (opts : List zap.Option) (l : zap.Logger) :
    (opts.foldl (fun l o => o.apply l) l).cores = l.cores := by
  induction opts generalizing l with
  | nil => rfl
  | cons o rest ih =>
    simp only [List.foldl_cons]
    rw [ih]
    cases o <;> rfl

theorem New_cores (caseRanges : Char → Char) (s ns : String) (opts : List zap.Option) :
    (New caseRanges s ns opts).cores
      = [⟨.Stderr, .highPriority⟩, ⟨.Stdout, .lowPriority (parseLevel caseRanges s)⟩] := by
  simp only [New, Named_cores, zap.New, zap_New_cores]

theorem parseLevel_range (caseRanges : Char → Char) (s : String) :
    zap.DebugLevel ≤ parseLevel caseRanges s ∧ parseLevel caseRanges s ≤ zap.ErrorLevel := by
  unfold parseLevel
  simp only [zap.DebugLevel, zap.InfoLevel, zap.WarnLevel, zap.ErrorLevel]
  split_ifs <;> decide

/-- C10: for the logger built by `New s ns` and a record of any level `L` (debug, info, warn
and error among them), with `min = parseLevel caseRanges s`: the error sink (stderr) writes the record
iff `L >= error`, the routine sink (stdout) writes it iff `min <= L < error`, the two never
both write it, and the number of writes is 1 when `L >= min` and 0 when `L < min`.
`parseLevel` lower-cases its argument and maps `debug`, `warn` and `error` to their levels and
every other string, `info` included, to the info level. -/
theorem New_splits_by_severity (caseRanges : Char → Char) (s ns : String) (opts : List zap.Option) (L : zap.Level)
    (msg : String) (fs : List zap.Field) :
    (zap.WriteSyncer.Stderr ∈ (((New caseRanges s ns opts).log L msg fs).map (fun w => w.out))
      ↔ L ≥ zap.ErrorLevel) ∧
    (zap.WriteSyncer.Stdout ∈ (((New caseRanges s ns opts).log L msg fs).map (fun w => w.out))
      ↔ parseLevel caseRanges s ≤ L ∧ L < zap.ErrorLevel) ∧
    ¬ (zap.WriteSyncer.Stderr ∈ (((New caseRanges s ns opts).log L msg fs).map (fun w => w.out)) ∧
       zap.WriteSyncer.Stdout ∈ (((New caseRanges s ns opts).log L msg fs).map (fun w => w.out))) ∧
    ((New caseRanges s ns opts).log L msg fs).length
      = (if parseLevel caseRanges s ≤ L then 1 else 0) ∧
    parseLevel caseRanges s
      = (if ToLower caseRanges s = "debug" then zap.DebugLevel
         else if ToLower caseRanges s = "warn" then zap.WarnLevel
         else if ToLower caseRanges s = "error" then zap.ErrorLevel
         else zap.InfoLevel) ∧
    parseLevel caseRanges "DEBUG" = zap.DebugLevel ∧
    parseLevel caseRanges "Info" = zap.InfoLevel ∧
    parseLevel caseRanges "wArN" = zap.WarnLevel ∧
    parseLevel caseRanges "ERROR" = zap.ErrorLevel ∧
    parseLevel caseRanges "verbose" = zap.InfoLevel := by
  have hr := parseLevel_range caseRanges s
  simp only [zap.DebugLevel, zap.ErrorLevel] at hr
  have hlog : ((New caseRanges s ns opts).log L msg fs).map (fun w => w.out)
      = (if L ≥ zap.ErrorLevel then [zap.WriteSyncer.Stderr] else [])
        ++ (if parseLevel caseRanges s ≤ L ∧ L < zap.ErrorLevel then [zap.WriteSyncer.Stdout]
            else []) := by
    simp only [zap.Logger.log, New_cores, List.filter_cons, List.filter_nil,
      zap.LevelEnabler.Enabled, zap.ErrorLevel]
    by_cases h1 : L ≥ 2 <;> by_cases h2 : L ≥ parseLevel caseRanges s <;> by_cases h3 : L < 2 <;>
      simp [h1, h2, h3]
  have hlen : ((New caseRanges s ns opts).log L msg fs).length
      = (((New caseRanges s ns opts).log L msg fs).map (fun w => w.out)).length := by simp
  refine ⟨?_, ?_, ?_, ?_, ?_, rfl, rfl, rfl, rfl, rfl⟩
  · rw [hlog]
    simp only [zap.ErrorLevel]
    by_cases h1 : L ≥ 2 <;> by_cases h2 : parseLevel caseRanges s ≤ L ∧ L < 2 <;> simp [h1, h2]
  · rw [hlog]
    simp only [zap.ErrorLevel]
    by_cases h1 : L ≥ 2 <;> by_cases h2 : parseLevel caseRanges s ≤ L ∧ L < 2 <;> simp [h1, h2]
  · rw [hlog]
    simp only [zap.ErrorLevel]
    by_cases h1 : L ≥ 2 <;> by_cases h2 : parseLevel caseRanges s ≤ L ∧ L < 2 <;> simp [h1, h2]
    linarith [h2.2]
  · rw [hlen, hlog]
    simp only [zap.ErrorLevel]
    by_cases h1 : L ≥ 2 <;> by_cases h2 : parseLevel caseRanges s ≤ L <;> by_cases h3 : L < 2 <;>
      simp [h1, h2, h3] <;> linarith [hr.2]
  · unfold parseLevel
    simp only [LevelDebug, LevelInfo, LevelWarn, LevelError]
    split_ifs <;> first | rfl | simp_all

end logger

namespace httplog

/-! ### The round trip of the HTTP client transport -/

theorem RoundTrip_sent (caseRanges : Char → Char) (z : zap.Logger) (uP uR : String) (dump : httputil)
    (t : httpLogTransport) (req : http.Request) :
    (t.RoundTrip caseRanges z uP uR dump req).sent
      = if (t.setting caseRanges req).PassContext then
          { req with
            Header := ((req.Header.Set logger.HTTPHeaderProcessID
              (logger.GetProcessID uP req.Context)).Set logger.HTTPHeaderRequestID uR) }
        else req := rfl

theorem RoundTrip_resp (caseRanges : Char → Char) (z : zap.Logger) (uP uR : String) (dump : httputil)
    (t : httpLogTransport) (req : http.Request) :
    (t.RoundTrip caseRanges z uP uR dump req).resp
      = (t.nextTransport.RoundTrip (t.RoundTrip caseRanges z uP uR dump req).sent).1 := rfl

theorem RoundTrip_calls (caseRanges : Char → Char) (z : zap.Logger) (uP uR : String) (dump : httputil)
    (t : httpLogTransport) (req : http.Request) :
    (t.RoundTrip caseRanges z uP uR dump req).calls
      = (if (t.setting caseRanges req).Request then [DumpCall.DumpRequestOut (t.setting caseRanges req).RequestBody]
         else [])
        ++ (if (t.setting caseRanges req).Response then
              match (t.RoundTrip caseRanges z uP uR dump req).resp with
              | some _ => [DumpCall.DumpResponse (t.setting caseRanges req).ResponseBody]
              | none => []
            else []) := by
  rw [RoundTrip_resp]
  generalize hs : (t.RoundTrip caseRanges z uP uR dump req).sent = sent
  rw [RoundTrip_sent] at hs
  generalize hst : t.setting caseRanges req = st at hs ⊢
  obtain ⟨⟨next⟩, bl, ds⟩ := t
  obtain ⟨dreq, dresp⟩ := dump
  obtain ⟨sRequest, sRequestBody, sResponse, sResponseBody, sPass⟩ := st
  simp only [httpLogTransport.RoundTrip, hst, hs]
  rcases hn : next sent with ⟨resp, err⟩
  rcases hd : dreq sent sRequestBody with ⟨b1, e1⟩
  cases sRequest <;> cases sResponse <;> cases resp <;> cases e1 <;> simp <;> split <;> rfl

theorem RoundTrip_request_field (caseRanges : Char → Char) (z : zap.Logger) (uP uR : String) (dump : httputil)
    (t : httpLogTransport) (req : http.Request) (body : Slice UInt8)
    (hreq : (t.setting caseRanges req).Request = true)
    (hd : dump.DumpRequestOut (t.RoundTrip caseRanges z uP uR dump req).sent (t.setting caseRanges req).RequestBody
      = (body, none)) :
    logger.RequestDump body ∈ (t.RoundTrip caseRanges z uP uR dump req).fields := by
  generalize hs : (t.RoundTrip caseRanges z uP uR dump req).sent = sent at hd
  rw [RoundTrip_sent] at hs
  generalize hst : t.setting caseRanges req = st at hs hd hreq
  obtain ⟨⟨next⟩, bl, ds⟩ := t
  obtain ⟨dreq, dresp⟩ := dump
  obtain ⟨sRequest, sRequestBody, sResponse, sResponseBody, sPass⟩ := st
  simp only at hreq hd
  subst hreq
  simp only [httpLogTransport.RoundTrip, hst, hs, hd]
  rcases hn : next sent with ⟨resp, err⟩
  cases sResponse <;> cases resp <;> simp
  all_goals (split <;> simp)

theorem RoundTrip_response_field (caseRanges : Char → Char) (z : zap.Logger) (uP uR : String) (dump : httputil)
    (t : httpLogTransport) (req : http.Request) (r : http.Response) (body : Slice UInt8)
    (hresp : (t.setting caseRanges req).Response = true)
    (hr : (t.RoundTrip caseRanges z uP uR dump req).resp = some r)
    (hd : dump.DumpResponse r (t.setting caseRanges req).ResponseBody = (body, none)) :
    logger.ResponseDump body ∈ (t.RoundTrip caseRanges z uP uR dump req).fields := by
  rw [RoundTrip_resp] at hr
  generalize hs : (t.RoundTrip caseRanges z uP uR dump req).sent = sent at hr
  rw [RoundTrip_sent] at hs
  generalize hst : t.setting caseRanges req = st at hs hd hresp
  obtain ⟨⟨next⟩, bl, ds⟩ := t
  obtain ⟨dreq, dresp⟩ := dump
  obtain ⟨sRequest, sRequestBody, sResponse, sResponseBody, sPass⟩ := st
  simp only at hresp hd hr
  subst hresp
  rcases hn : next sent with ⟨resp, err⟩
  rw [hn] at hr
  simp only at hr
  subst hr
  simp only [httpLogTransport.RoundTrip, hst, hs, hd, hn]
  rcases hq : dreq sent sRequestBody with ⟨b1, e1⟩
  cases sRequest <;> cases e1 <;> simp

end httplog

namespace httplog

theorem setting_single_other (caseRanges : Char → Char) (next : http.RoundTripper) (k : String)
    (v ds : settings) (req : http.Request)
    (h : reqKey caseRanges req.Method req.URL.Path ≠ k) :
    httpLogTransport.setting caseRanges ⟨next, [(k, v)], ds⟩ req = ds := by
  have h2 : ¬ k = reqKey caseRanges req.Method req.URL.Path := fun e => h e.symm
  simp [httpLogTransport.setting, GoMap.get, h2]

theorem RoundTrip_logged (caseRanges : Char → Char) (z : zap.Logger) (uP uR : String)
    (dump : httputil) (t : httpLogTransport) (req : http.Request) :
    (t.RoundTrip caseRanges z uP uR dump req).logged
      = (logger.FromCtx z (some req.Context) "httplog").Debug "http request sent"
          (t.RoundTrip caseRanges z uP uR dump req).fields := by
  have hif : (t.RoundTrip caseRanges z uP uR dump req).logged
      = if (t.RoundTrip caseRanges z uP uR dump req).fields.length > 0 then
          (logger.FromCtx z (some req.Context) "httplog").Debug "http request sent"
            (t.RoundTrip caseRanges z uP uR dump req).fields
        else [] := rfl
  have hlast : ∃ (pre : List zap.Field) (errs : List http.error),
      (t.RoundTrip caseRanges z uP uR dump req).fields = pre ++ [zap.Errors "errors" errs] :=
    ⟨_, _, rfl⟩
  obtain ⟨pre, errs, hf⟩ := hlast
  have hpos : (t.RoundTrip caseRanges z uP uR dump req).fields.length > 0 := by
    rw [hf]; simp
  rw [hif, if_pos hpos]

theorem mem_entry_fields (l : zap.Logger) (lvl : zap.Level) (msg : String)
    (fields : List zap.Field) (f : zap.Field) (hf : f ∈ fields) (w : zap.Write)
    (hw : w ∈ l.log lvl msg fields) : f ∈ w.entry.Fields := by
  simp only [zap.Logger.log, List.mem_map] at hw
  obtain ⟨c, _, hc⟩ := hw
  rw [← hc]
  exact List.mem_append_right _ hf

end httplog


namespace logger

theorem FromCtx_cores (z : zap.Logger) (ctx : Context) (ns : String) :
    (FromCtx z (some ctx) ns).cores = z.cores := by
  rw [FromCtx_some, Named_cores]

theorem log_length_of_cores (l : zap.Logger) (g L : zap.Level) (msg : String)
    (fs : List zap.Field)
    (hc : l.cores = [⟨.Stderr, .highPriority⟩, ⟨.Stdout, .lowPriority g⟩])
    (hL : L < zap.ErrorLevel) :
    (l.log L msg fs).length = (if g ≤ L then 1 else 0) := by
  simp only [zap.ErrorLevel] at hL
  have h1 : ¬ L ≥ 2 := not_le.mpr hL
  simp only [zap.Logger.log, hc, List.filter_cons, List.filter_nil, zap.LevelEnabler.Enabled,
    zap.ErrorLevel, List.length_map]
  by_cases h2 : g ≤ L <;> simp [h1, h2, hL]

theorem log_level (l : zap.Logger) (L : zap.Level) (msg : String) (fs : List zap.Field) :
    ((l.log L msg fs).map (fun w => w.entry.Level)) = List.replicate (l.log L msg fs).length L := by
  simp only [zap.Logger.log, List.map_map, List.length_map]
  induction (l.cores.filter (fun c => c.enab.Enabled L)) with
  | nil => rfl
  | cons _ rest ih => simp [List.replicate_succ, ih]

end logger

namespace httplog

/-- C8: for the transport built by `New` with `SkipReqBody(m, p)` as its only option, the one
debug record of a round trip is handed to the logger resolved from the request context and
carries the fields built during the trip; on a logger built by `logger.New` it is written
exactly once when the routine minimum is at most debug. A request whose key equals
`reqKey(m, p)` (one with method `m` and path `p` in particular) resolves to the policy with
`RequestBody` cleared and the four other flags set, so the request dump is taken without the
body and, when it succeeds, is a field of every write of the record; a request whose key
differs resolves to the default policy with all five flags set, so the request is dumped with
its body, a response that came back is dumped with its body, and the dumps that succeed are
fields of every write of the record. The keys are compared as `reqKey` builds them, under
every case table of `strings.ToLower`. -/
theorem SkipReqBody_policy (caseRanges : Char → Char) (next : http.RoundTripper) (m p : String)
    (z : zap.Logger) (uP uR : String) (dump : httputil) (req : http.Request) :
    ((New caseRanges next [SkipReqBody m [p]]).RoundTrip caseRanges z uP uR dump req).logged
      = (logger.FromCtx z (some req.Context) "httplog").Debug "http request sent"
          ((New caseRanges next [SkipReqBody m [p]]).RoundTrip caseRanges z uP uR dump
            req).fields ∧
    (∀ g : zap.Level, z.cores = [⟨.Stderr, .highPriority⟩, ⟨.Stdout, .lowPriority g⟩] →
      ((New caseRanges next [SkipReqBody m [p]]).RoundTrip caseRanges z uP uR dump
          req).logged.length
        = (if g ≤ zap.DebugLevel then 1 else 0)) ∧
    (reqKey caseRanges req.Method req.URL.Path = reqKey caseRanges m p →
      (New caseRanges next [SkipReqBody m [p]]).setting caseRanges req
        = ⟨true, false, true, true, true⟩ ∧
      ((New caseRanges next [SkipReqBody m [p]]).RoundTrip caseRanges z uP uR dump
          req).calls.head?
        = some (DumpCall.DumpRequestOut false) ∧
      (∀ body : Slice UInt8,
        dump.DumpRequestOut
            ((New caseRanges next [SkipReqBody m [p]]).RoundTrip caseRanges z uP uR dump
              req).sent false
          = (body, none) →
        logger.RequestDump body
          ∈ ((New caseRanges next [SkipReqBody m [p]]).RoundTrip caseRanges z uP uR dump
              req).fields ∧
        ∀ w ∈ ((New caseRanges next [SkipReqBody m [p]]).RoundTrip caseRanges z uP uR dump
            req).logged,
          logger.RequestDump body ∈ w.entry.Fields)) ∧
    (reqKey caseRanges req.Method req.URL.Path ≠ reqKey caseRanges m p →
      (New caseRanges next [SkipReqBody m [p]]).setting caseRanges req
        = ⟨true, true, true, true, true⟩ ∧
      ((New caseRanges next [SkipReqBody m [p]]).RoundTrip caseRanges z uP uR dump req).calls
        = DumpCall.DumpRequestOut true ::
          (match ((New caseRanges next [SkipReqBody m [p]]).RoundTrip caseRanges z uP uR dump
              req).resp with
           | some _ => [DumpCall.DumpResponse true]
           | none => []) ∧
      (∀ body : Slice UInt8,
        dump.DumpRequestOut
            ((New caseRanges next [SkipReqBody m [p]]).RoundTrip caseRanges z uP uR dump
              req).sent true
          = (body, none) →
        logger.RequestDump body
          ∈ ((New caseRanges next [SkipReqBody m [p]]).RoundTrip caseRanges z uP uR dump
              req).fields ∧
        ∀ w ∈ ((New caseRanges next [SkipReqBody m [p]]).RoundTrip caseRanges z uP uR dump
            req).logged,
          logger.RequestDump body ∈ w.entry.Fields) ∧
      (∀ (r : http.Response) (body : Slice UInt8),
        ((New caseRanges next [SkipReqBody m [p]]).RoundTrip caseRanges z uP uR dump req).resp
          = some r →
        dump.DumpResponse r true = (body, none) →
        logger.ResponseDump body
          ∈ ((New caseRanges next [SkipReqBody m [p]]).RoundTrip caseRanges z uP uR dump
              req).fields ∧
        ∀ w ∈ ((New caseRanges next [SkipReqBody m [p]]).RoundTrip caseRanges z uP uR dump
            req).logged,
          logger.ResponseDump body ∈ w.entry.Fields)) := by
  generalize ht : New caseRanges next [SkipReqBody m [p]] = t
  have hbl : t = ⟨next, [(reqKey caseRanges m p, ⟨true, false, true, true, true⟩)],
      defaultLogSetting⟩ := by
    rw [← ht]; rfl
  have hlogged := RoundTrip_logged caseRanges z uP uR dump t req
  have hwrites : ∀ f : zap.Field, f ∈ (t.RoundTrip caseRanges z uP uR dump req).fields →
      ∀ w ∈ (t.RoundTrip caseRanges z uP uR dump req).logged, f ∈ w.entry.Fields := by
    intro f hf w hw
    rw [hlogged] at hw
    exact mem_entry_fields _ _ _ _ f hf w hw
  refine ⟨hlogged, ?_, ?_, ?_⟩
  · intro g hc
    rw [hlogged]
    exact logger.log_length_of_cores _ g zap.DebugLevel _ _
      (by rw [logger.FromCtx_cores, hc]) (by decide)
  · intro hkey
    have hset : t.setting caseRanges req = ⟨true, false, true, true, true⟩ := by
      rw [hbl]; exact setting_single caseRanges next _ _ _ req hkey
    refine ⟨hset, ?_, ?_⟩
    · rw [RoundTrip_calls, hset]; rfl
    · intro body hd
      have hf := RoundTrip_request_field caseRanges z uP uR dump t req body (by rw [hset])
        (by rw [hset]; exact hd)
      exact ⟨hf, hwrites _ hf⟩
  · intro hkey
    have hset : t.setting caseRanges req = ⟨true, true, true, true, true⟩ := by
      rw [hbl]; exact setting_single_other caseRanges next _ _ _ req hkey
    refine ⟨hset, ?_, ?_, ?_⟩
    · rw [RoundTrip_calls, hset]; rfl
    · intro body hd
      have hf := RoundTrip_request_field caseRanges z uP uR dump t req body (by rw [hset])
        (by rw [hset]; exact hd)
      exact ⟨hf, hwrites _ hf⟩
    · intro r body hr hd
      have hf := RoundTrip_response_field caseRanges z uP uR dump t req r body (by rw [hset]) hr
        (by rw [hset]; exact hd)
      exact ⟨hf, hwrites _ hf⟩

end httplog

namespace httplog

/-- Witness of C8 at `m = POST`, `p = /skip-body`, on the logger `New "debug" "app"`: the
request to `/skip-body`, a request whose path spells `k` with the Kelvin sign and so has the
same key, and a request to `/other`. -/
theorem SkipReqBody_policy_witness :
    reqKey example_values.caseRanges "POST" "/skip-body"
      = reqKey example_values.caseRanges "POST" "/skip-body" ∧
    example_values.skipTransport.setting example_values.caseRanges
        (example_values.post "/skip-body" none) = ⟨true, false, true, true, true⟩ ∧
    (∀ w ∈ (example_values.skipTransport.RoundTrip example_values.caseRanges
        example_values.debugLogger "u1" "u2" example_values.bodyDump
        (example_values.post "/skip-body" none)).logged,
      logger.RequestDump none ∈ w.entry.Fields) ∧
    reqKey example_values.caseRanges "POST" "/s\u212aip-body"
      = reqKey example_values.caseRanges "POST" "/skip-body" ∧
    example_values.skipTransport.setting example_values.caseRanges
        (example_values.post "/s\u212aip-body" none) = ⟨true, false, true, true, true⟩ ∧
    reqKey example_values.caseRanges "POST" "/other"
      ≠ reqKey example_values.caseRanges "POST" "/skip-body" ∧
    example_values.skipTransport.setting example_values.caseRanges
        (example_values.post "/other" none) = ⟨true, true, true, true, true⟩ ∧
    (example_values.skipTransport.RoundTrip example_values.caseRanges
        example_values.debugLogger "u1" "u2" example_values.bodyDump
        (example_values.post "/other" none)).calls
      = [DumpCall.DumpRequestOut true, DumpCall.DumpResponse true] ∧
    (example_values.skipTransport.RoundTrip example_values.caseRanges
        example_values.debugLogger "u1" "u2" example_values.bodyDump
        (example_values.post "/other" none)).logged.length = 1 ∧
    (∀ w ∈ (example_values.skipTransport.RoundTrip example_values.caseRanges
        example_values.debugLogger "u1" "u2" example_values.bodyDump
        (example_values.post "/other" none)).logged,
      logger.RequestDump (some [1, 2, 3]) ∈ w.entry.Fields) ∧
    (∀ w ∈ (example_values.skipTransport.RoundTrip example_values.caseRanges
        example_values.debugLogger "u1" "u2" example_values.bodyDump
        (example_values.post "/other" none)).logged,
      logger.ResponseDump (some [111, 107]) ∈ w.entry.Fields) :=
  ⟨rfl,
   ((SkipReqBody_policy example_values.caseRanges example_values.okTransport "POST"
      "/skip-body" example_values.debugLogger "u1" "u2" example_values.bodyDump
      (example_values.post "/skip-body" none)).2.2.1 rfl).1,
   (((SkipReqBody_policy example_values.caseRanges example_values.okTransport "POST"
      "/skip-body" example_values.debugLogger "u1" "u2" example_values.bodyDump
      (example_values.post "/skip-body" none)).2.2.1 rfl).2.2 none rfl).2,
   by decide,
   ((SkipReqBody_policy example_values.caseRanges example_values.okTransport "POST"
      "/skip-body" example_values.debugLogger "u1" "u2" example_values.bodyDump
      (example_values.post "/s\u212aip-body" none)).2.2.1 (by decide)).1,
   by decide,
   ((SkipReqBody_policy example_values.caseRanges example_values.okTransport "POST"
      "/skip-body" example_values.debugLogger "u1" "u2" example_values.bodyDump
      (example_values.post "/other" none)).2.2.2 (by decide)).1,
   ((SkipReqBody_policy example_values.caseRanges example_values.okTransport "POST"
      "/skip-body" example_values.debugLogger "u1" "u2" example_values.bodyDump
      (example_values.post "/other" none)).2.2.2 (by decide)).2.1,
   (SkipReqBody_policy example_values.caseRanges example_values.okTransport "POST"
      "/skip-body" example_values.debugLogger "u1" "u2" example_values.bodyDump
      (example_values.post "/other" none)).2.1 zap.DebugLevel rfl,
   (((SkipReqBody_policy example_values.caseRanges example_values.okTransport "POST"
      "/skip-body" example_values.debugLogger "u1" "u2" example_values.bodyDump
      (example_values.post "/other" none)).2.2.2 (by decide)).2.2.1 (some [1, 2, 3]) rfl).2,
   (((SkipReqBody_policy example_values.caseRanges example_values.okTransport "POST"
      "/skip-body" example_values.debugLogger "u1" "u2" example_values.bodyDump
      (example_values.post "/other" none)).2.2.2 (by decide)).2.2.2
        ⟨200, [], some [111, 107]⟩ (some [111, 107]) rfl rfl).2⟩

end httplog

namespace http

theorem Header.Get_Set_self (h : Header) (k v : String) : (h.Set k v).Get k = v := by
  simp [Header.Get, Header.Set, GoMap.get_set_self]

theorem Header.Get_Set_other (h : Header) (k q v : String)
    (hne : CanonicalMIMEHeaderKey k ≠ CanonicalMIMEHeaderKey q) :
    (h.Set k v).Get q = h.Get q := by
  simp [Header.Get, Header.Set, GoMap.get_set_other _ _ _ _ hne]

end http

namespace ginlog

/-! ### Process-ID propagation from the server middleware to an outbound call -/

/-- C9: the middleware `Log` runs the rest of the handler chain on the gin context it has
prepared: the request of that context is the inbound request with its context replaced by one
that binds, as process ID, the inbound `x-log-process-id` header when it is non-empty and the
generated identifier otherwise, and as request ID the inbound `x-log-request-id` header or the
generated identifier likewise, and its key store holds both identifiers; both are non-empty
when the generated identifiers are. An outbound call made with that context through
`RoundTrip`, under a policy with `PassContext` set, hands the wrapped transport a request
whose `x-log-process-id` header is that bound process ID (and whose `x-log-request-id` header
is the identifier generated for the hop). -/
theorem Log_propagates_process_id (caseRanges : Char → Char) (uP uR : String) (hP : uP ≠ "")
    (hR : uR ≠ "") (z : zap.Logger) (latency : Int) (Next : gin.Context → gin.Context)
    (c : gin.Context) (z2 : zap.Logger) (vP vR : String) (dump : httputil)
    (t : httplog.httpLogTransport) (req : http.Request)
    (hctx : req.ctx = (Log z uP uR latency Next c).handed.Request.ctx)
    (hpass : (t.setting caseRanges req).PassContext = true) :
    (Log z uP uR latency Next c).final = Next (Log z uP uR latency Next c).handed ∧
    (Log z uP uR latency Next c).handed.Request
      = c.Request.WithContext
          (logger.BindRequestID
            (logger.BindProcessID c.Request.Context
              (if c.GetHeader logger.HTTPHeaderProcessID = "" then uP
               else c.GetHeader logger.HTTPHeaderProcessID))
            (if c.GetHeader logger.HTTPHeaderRequestID = "" then uR
             else c.GetHeader logger.HTTPHeaderRequestID)) ∧
    (Log z uP uR latency Next c).handed.Keys
      = GoMap.set
          (GoMap.set c.Keys "loggerProcessIDKey"
            (.string (if c.GetHeader logger.HTTPHeaderProcessID = "" then uP
                      else c.GetHeader logger.HTTPHeaderProcessID)))
          "loggerRequestIDKey"
          (.string (if c.GetHeader logger.HTTPHeaderRequestID = "" then uR
                    else c.GetHeader logger.HTTPHeaderRequestID)) ∧
    logger.boundString (Log z uP uR latency Next c).handed.Request.Context logger.ProcessIDKey
      = some (if c.GetHeader logger.HTTPHeaderProcessID = "" then uP
              else c.GetHeader logger.HTTPHeaderProcessID) ∧
    logger.boundString (Log z uP uR latency Next c).handed.Request.Context logger.RequestIDKey
      = some (if c.GetHeader logger.HTTPHeaderRequestID = "" then uR
              else c.GetHeader logger.HTTPHeaderRequestID) ∧
    (if c.GetHeader logger.HTTPHeaderProcessID = "" then uP
      else c.GetHeader logger.HTTPHeaderProcessID) ≠ "" ∧
    (if c.GetHeader logger.HTTPHeaderRequestID = "" then uR
      else c.GetHeader logger.HTTPHeaderRequestID) ≠ "" ∧
    (t.RoundTrip caseRanges z2 vP vR dump req).sent.Header.Get logger.HTTPHeaderProcessID
      = (if c.GetHeader logger.HTTPHeaderProcessID = "" then uP
         else c.GetHeader logger.HTTPHeaderProcessID) ∧
    (t.RoundTrip caseRanges z2 vP vR dump req).sent.Header.Get logger.HTTPHeaderRequestID
      = vR := by
  have hA : (Log z uP uR latency Next c).final = Next (Log z uP uR latency Next c).handed := rfl
  have hB : (Log z uP uR latency Next c).handed.Request
      = c.Request.WithContext
          (logger.BindRequestID
            (logger.BindProcessID c.Request.Context
              (if c.GetHeader logger.HTTPHeaderProcessID = "" then uP
               else c.GetHeader logger.HTTPHeaderProcessID))
            (if c.GetHeader logger.HTTPHeaderRequestID = "" then uR
             else c.GetHeader logger.HTTPHeaderRequestID)) := rfl
  have hC : (Log z uP uR latency Next c).handed.Keys
      = GoMap.set
          (GoMap.set c.Keys "loggerProcessIDKey"
            (.string (if c.GetHeader logger.HTTPHeaderProcessID = "" then uP
                      else c.GetHeader logger.HTTPHeaderProcessID)))
          "loggerRequestIDKey"
          (.string (if c.GetHeader logger.HTTPHeaderRequestID = "" then uR
                    else c.GetHeader logger.HTTPHeaderRequestID)) := rfl
  generalize hpid : (if c.GetHeader logger.HTTPHeaderProcessID = "" then uP
      else c.GetHeader logger.HTTPHeaderProcessID) = pid
  generalize hrid : (if c.GetHeader logger.HTTPHeaderRequestID = "" then uR
      else c.GetHeader logger.HTTPHeaderRequestID) = rid
  have hpne : pid ≠ "" := by
    rw [← hpid]; split_ifs with h
    · exact hP
    · exact h
  have hrne : rid ≠ "" := by
    rw [← hrid]; split_ifs with h
    · exact hR
    · exact h
  have hhanded : (Log z uP uR latency Next c).handed.Request.ctx
      = some (logger.BindRequestID (logger.BindProcessID c.Request.Context pid) rid) := by
    rw [← hpid, ← hrid]; rfl
  have hb1 : logger.boundString
      (logger.BindRequestID (logger.BindProcessID c.Request.Context pid) rid) logger.ProcessIDKey
      = some pid := by
    have hv := logger.value_withValue_other (logger.BindProcessID c.Request.Context pid)
      logger.RequestIDKey logger.ProcessIDKey (.string rid) (by decide)
    have hp := logger.boundString_bindProcessID c.Request.Context pid
    simp only [logger.boundString, logger.BindRequestID] at hp ⊢
    rw [hv]
    exact hp
  have hb2 : logger.boundString
      (logger.BindRequestID (logger.BindProcessID c.Request.Context pid) rid) logger.RequestIDKey
      = some rid := by
    simp [logger.boundString, logger.BindRequestID, logger.value_withValue_self]
  have hc1 : (Log z uP uR latency Next c).handed.Request.Context
      = logger.BindRequestID (logger.BindProcessID c.Request.Context pid) rid := by
    simp only [http.Request.Context, hhanded]
  have hc2 : req.Context
      = logger.BindRequestID (logger.BindProcessID c.Request.Context pid) rid := by
    simp only [http.Request.Context, hctx, hhanded]
  have hget : logger.GetProcessID vP req.Context = pid := by
    rw [logger.GetProcessID_eq, hc2, hb1]
    simp [hpne]
  refine ⟨hA, by rw [← hpid, ← hrid]; exact hB, by rw [← hpid, ← hrid]; exact hC,
    by rw [hc1]; exact hb1, by rw [hc1]; exact hb2, hpne, hrne, ?_, ?_⟩
  · rw [httplog.RoundTrip_sent, if_pos hpass]
    simp only []
    rw [http.Header.Get_Set_other _ _ _ _ (by decide), http.Header.Get_Set_self, hget]
  · rw [httplog.RoundTrip_sent, if_pos hpass]
    simp only []
    rw [http.Header.Get_Set_self]

/-- Witness of C9: the inbound request carrying `x-log-process-id: abc`, run through `Log`
with a handler chain that reports the process ID it finds in its request context, and an
outbound `POST` made with that context through a transport without overrides. -/
theorem Log_propagates_process_id_witness :
    "u1" ≠ "" ∧ "u2" ≠ "" ∧
    (Log zap.NewNop "u1" "u2" 5 example_values.observe example_values.inbound).final.ClientIP
      = "abc" ∧
    logger.boundString
        (Log zap.NewNop "u1" "u2" 5 example_values.observe
          example_values.inbound).handed.Request.Context
        logger.ProcessIDKey = some "abc" ∧
    ((httplog.New example_values.caseRanges example_values.okTransport []).RoundTrip
        example_values.caseRanges zap.NewNop "v1" "v2" example_values.bodyDump
        (example_values.post "/next"
          (Log zap.NewNop "u1" "u2" 5 example_values.observe
            example_values.inbound).handed.Request.ctx)).sent.Header.Get
      logger.HTTPHeaderProcessID = "abc" :=
  ⟨by decide, by decide,
   congrArg gin.Context.ClientIP
     (Log_propagates_process_id example_values.caseRanges "u1" "u2" (by decide) (by decide)
        zap.NewNop 5 example_values.observe example_values.inbound zap.NewNop "v1" "v2"
        example_values.bodyDump
        (httplog.New example_values.caseRanges example_values.okTransport [])
        (example_values.post "/next"
          (Log zap.NewNop "u1" "u2" 5 example_values.observe
            example_values.inbound).handed.Request.ctx)
        rfl rfl).1,
   (Log_propagates_process_id example_values.caseRanges "u1" "u2" (by decide) (by decide)
      zap.NewNop 5 example_values.observe example_values.inbound zap.NewNop "v1" "v2"
      example_values.bodyDump
      (httplog.New example_values.caseRanges example_values.okTransport [])
      (example_values.post "/next"
        (Log zap.NewNop "u1" "u2" 5 example_values.observe
          example_values.inbound).handed.Request.ctx)
      rfl rfl).2.2.2.1,
   (Log_propagates_process_id example_values.caseRanges "u1" "u2" (by decide) (by decide)
      zap.NewNop 5 example_values.observe example_values.inbound zap.NewNop "v1" "v2"
      example_values.bodyDump
      (httplog.New example_values.caseRanges example_values.okTransport [])
      (example_values.post "/next"
        (Log zap.NewNop "u1" "u2" 5 example_values.observe
          example_values.inbound).handed.Request.ctx)
      rfl rfl).2.2.2.2.2.2.2.1⟩

end ginlog

namespace ginlog

/-! ### The summary record of the server middleware -/

theorem LogExcept_logged (skipPath : List String) (z : zap.Logger) (uP uR : String)
    (latency : Int) (Next : gin.Context → gin.Context) (c : gin.Context) :
    (LogExcept skipPath z uP uR latency Next c).logged
      = if ¬ (c.Request.URL.Path ∈ skipPath) then
          if (LogExcept skipPath z uP uR latency Next c).final.Errors.length > 0 then
            (LogExcept skipPath z uP uR latency Next c).final.Errors.flatMap (fun e =>
              (logger.FromCtx z (LogExcept skipPath z uP uR latency Next c).handed.Request.ctx
                "gin").Error e [])
          else
            logFunc
              (logger.FromCtx z (LogExcept skipPath z uP uR latency Next c).handed.Request.ctx
                "gin")
              (LogExcept skipPath z uP uR latency Next c).final.Status c.Request.URL.Path
              [zap.Int "http_code" (LogExcept skipPath z uP uR latency Next c).final.Status,
               zap.String "method"
                 (LogExcept skipPath z uP uR latency Next c).final.Request.Method,
               zap.String "path" c.Request.URL.Path,
               zap.String "query" c.Request.URL.RawQuery,
               zap.String "ip" (LogExcept skipPath z uP uR latency Next c).final.ClientIP,
               zap.String "user-agent"
                 (LogExcept skipPath z uP uR latency Next c).final.Request.UserAgent,
               zap.Duration "latency" latency]
        else [] := rfl

/-- C11: for a request whose path is not in the skip-list (every request, for `Log`) and whose
handler chain recorded no error, the middleware makes exactly one logger call, the summary:
its message is the path, its fields are the status code, method, path, query, client address,
user agent and latency, and its level is warn when the status code is at least 400, info when
it is from 300 to 399 and debug when it is below 300, so never error. Every write of the run
has that level, and on a logger built by `logger.New` (two cores, routine minimum `g`) the
summary is written exactly once when `g` is at most its level and not at all otherwise. -/
theorem LogExcept_summary_severity (skipPath : List String) (z : zap.Logger) (uP uR : String)
    (latency : Int) (Next : gin.Context → gin.Context) (c : gin.Context)
    (hskip : c.Request.URL.Path ∉ skipPath)
    (herr : (LogExcept skipPath z uP uR latency Next c).final.Errors = []) :
    (LogExcept skipPath z uP uR latency Next c).logged
      = (logger.FromCtx z (LogExcept skipPath z uP uR latency Next c).handed.Request.ctx "gin").log
          (if (LogExcept skipPath z uP uR latency Next c).final.Status ≥ 400 then zap.WarnLevel
           else if (LogExcept skipPath z uP uR latency Next c).final.Status ≥ 300
             then zap.InfoLevel
           else zap.DebugLevel)
          c.Request.URL.Path
          [zap.Int "http_code" (LogExcept skipPath z uP uR latency Next c).final.Status,
           zap.String "method" (LogExcept skipPath z uP uR latency Next c).final.Request.Method,
           zap.String "path" c.Request.URL.Path,
           zap.String "query" c.Request.URL.RawQuery,
           zap.String "ip" (LogExcept skipPath z uP uR latency Next c).final.ClientIP,
           zap.String "user-agent"
             (LogExcept skipPath z uP uR latency Next c).final.Request.UserAgent,
           zap.Duration "latency" latency] ∧
    (if (LogExcept skipPath z uP uR latency Next c).final.Status ≥ 400 then zap.WarnLevel
     else if (LogExcept skipPath z uP uR latency Next c).final.Status ≥ 300 then zap.InfoLevel
     else zap.DebugLevel) ≠ zap.ErrorLevel ∧
    ((LogExcept skipPath z uP uR latency Next c).logged.map (fun w => w.entry.Level))
      = List.replicate (LogExcept skipPath z uP uR latency Next c).logged.length
          (if (LogExcept skipPath z uP uR latency Next c).final.Status ≥ 400 then zap.WarnLevel
           else if (LogExcept skipPath z uP uR latency Next c).final.Status ≥ 300
             then zap.InfoLevel
           else zap.DebugLevel) ∧
    (∀ g : zap.Level, z.cores = [⟨.Stderr, .highPriority⟩, ⟨.Stdout, .lowPriority g⟩] →
      (LogExcept skipPath z uP uR latency Next c).logged.length
        = (if g ≤ (if (LogExcept skipPath z uP uR latency Next c).final.Status ≥ 400
                     then zap.WarnLevel
                   else if (LogExcept skipPath z uP uR latency Next c).final.Status ≥ 300
                     then zap.InfoLevel
                   else zap.DebugLevel)
           then 1 else 0)) := by
  generalize hsev : (if (LogExcept skipPath z uP uR latency Next c).final.Status ≥ 400
      then zap.WarnLevel
      else if (LogExcept skipPath z uP uR latency Next c).final.Status ≥ 300 then zap.InfoLevel
      else zap.DebugLevel) = sev
  have hsevlt : sev < zap.ErrorLevel := by
    rw [← hsev]; split_ifs <;> decide
  have hlogged : (LogExcept skipPath z uP uR latency Next c).logged
      = (logger.FromCtx z (LogExcept skipPath z uP uR latency Next c).handed.Request.ctx "gin").log
          sev c.Request.URL.Path
          [zap.Int "http_code" (LogExcept skipPath z uP uR latency Next c).final.Status,
           zap.String "method" (LogExcept skipPath z uP uR latency Next c).final.Request.Method,
           zap.String "path" c.Request.URL.Path,
           zap.String "query" c.Request.URL.RawQuery,
           zap.String "ip" (LogExcept skipPath z uP uR latency Next c).final.ClientIP,
           zap.String "user-agent"
             (LogExcept skipPath z uP uR latency Next c).final.Request.UserAgent,
           zap.Duration "latency" latency] := by
    rw [← hsev, LogExcept_logged, if_pos hskip, herr]
    simp only [List.length_nil, gt_iff_lt, lt_self_iff_false, if_false, logFunc,
      http.StatusBadRequest, http.StatusMultipleChoices]
    split_ifs <;> rfl
  refine ⟨hlogged, ne_of_lt hsevlt, ?_, ?_⟩
  · rw [hlogged]
    exact logger.log_level _ _ _ _
  · intro g hc
    rw [hlogged]
    refine logger.log_length_of_cores _ g sev _ _ ?_ hsevlt
    have hh : (LogExcept skipPath z uP uR latency Next c).handed.Request.ctx
        = some (logger.BindRequestID (logger.BindProcessID c.Request.Context
            (if c.GetHeader logger.HTTPHeaderProcessID = "" then uP
             else c.GetHeader logger.HTTPHeaderProcessID))
            (if c.GetHeader logger.HTTPHeaderRequestID = "" then uR
             else c.GetHeader logger.HTTPHeaderRequestID)) := rfl
    rw [hh, logger.FromCtx_cores, hc]

/-- Witness of C11: the inbound `GET /` through `Log` on the logger `New "debug" "app"`, once
with a handler answering 503 and once with one answering 200. -/
theorem LogExcept_summary_severity_witness :
    "/" ∉ ([] : List String) ∧
    (Log (logger.New example_values.caseRanges "debug" "app" []) "u1" "u2" 5 (example_values.respond 503)
        example_values.inbound).final.Errors = [] ∧
    ((Log (logger.New example_values.caseRanges "debug" "app" []) "u1" "u2" 5 (example_values.respond 503)
        example_values.inbound).logged.map (fun w => w.entry.Level)) = [zap.WarnLevel] ∧
    (Log (logger.New example_values.caseRanges "debug" "app" []) "u1" "u2" 5 (example_values.respond 503)
        example_values.inbound).logged.length = 1 ∧
    ((Log (logger.New example_values.caseRanges "debug" "app" []) "u1" "u2" 5 (example_values.respond 200)
        example_values.inbound).logged.map (fun w => w.entry.Level)) = [zap.DebugLevel] :=
  ⟨by decide, rfl,
   (LogExcept_summary_severity [] (logger.New example_values.caseRanges "debug" "app" []) "u1" "u2" 5
      (example_values.respond 503) example_values.inbound (by decide) rfl).2.2.1,
   (LogExcept_summary_severity [] (logger.New example_values.caseRanges "debug" "app" []) "u1" "u2" 5
      (example_values.respond 503) example_values.inbound (by decide) rfl).2.2.2
      zap.DebugLevel rfl,
   (LogExcept_summary_severity [] (logger.New example_values.caseRanges "debug" "app" []) "u1" "u2" 5
      (example_values.respond 200) example_values.inbound (by decide) rfl).2.2.1⟩

end ginlog

namespace backing

/-! ### Sibling contexts derived from one parent -/

theorem cells_alloc_old (h : Heap) (v : List zap.Field) (i : Nat) (hi : i < h.length) :
    Heap.cells (h ++ [v]) i = h.cells i := by
  simp [Heap.cells, List.getD_eq_getElem?_getD, List.getElem?_append_left hi]

theorem cells_alloc_new (h : Heap) (v : List zap.Field) :
    Heap.cells (h ++ [v]) h.length = v := by
  simp [Heap.cells, List.getD_eq_getElem?_getD]

theorem cells_write_self (h : Heap) (i pos : Nat) (xs : List zap.Field) (hi : i < h.length) :
    (h.write i pos xs).cells i
      = (h.cells i).take pos ++ xs ++ (h.cells i).drop (pos + xs.length) := by
  simp [Heap.write, Heap.cells, List.getD_eq_getElem?_getD, hi]

theorem length_write (h : Heap) (i pos : Nat) (xs : List zap.Field) :
    (h.write i pos xs).length = h.length := by
  simp [Heap.write]

theorem take_written (cells rest : List zap.Field) (pos : Nat) (x : zap.Field)
    (hpos : pos ≤ cells.length) :
    (cells.take pos ++ [x] ++ rest).take (pos + 1) = cells.take pos ++ [x] ∧
    (cells.take pos ++ [x] ++ rest).take pos = cells.take pos := by
  have hl : (cells.take pos).length = pos := by simp [hpos]
  constructor
  · rw [List.append_assoc, List.take_append_eq_append_take, hl]
    simp [List.take_of_length_le (le_of_eq hl)]
  · rw [List.append_assoc, List.take_append_eq_append_take, hl]
    simp [List.take_of_length_le (le_of_eq hl)]

theorem BindFieldsArgs_in_place (grow : Nat → Nat → Nat) (h : Heap) (c : Context)
    (s : SliceHeader) (x : zap.Field)
    (hv : c.Value logger.BindFieldsKey = some (.fieldSlice (some s)))
    (hcap : s.len + 1 ≤ s.cap) :
    BindFieldsArgs grow h c [x]
      = (.withValue c logger.BindFieldsKey (.fieldSlice (some ⟨s.array, s.len + 1, s.cap⟩)),
         Heap.write (h ++ [[x]]) s.array s.len [x]) := by
  simp only [BindFieldsArgs, BindFields, hv, append, Heap.alloc, Heap.elems, cells_alloc_new,
    List.length_singleton, List.take_succ_cons, List.take_zero, if_pos hcap]

theorem siblings_share_cell (grow : Nat → Nat → Nat) (h : Heap) (c : Context) (s : SliceHeader)
    (x y : zap.Field)
    (hv : c.Value logger.BindFieldsKey = some (.fieldSlice (some s)))
    (ha : s.array < h.length) (hcap : s.len + 1 ≤ s.cap)
    (hlen : s.len ≤ (h.cells s.array).length) :
    boundFields (BindFieldsArgs grow h c [x]).2 (BindFieldsArgs grow h c [x]).1
      = boundFields h c ++ [x] ∧
    boundFields (BindFieldsArgs grow (BindFieldsArgs grow h c [x]).2 c [y]).2
        (BindFieldsArgs grow h c [x]).1
      = boundFields h c ++ [y] ∧
    boundFields (BindFieldsArgs grow (BindFieldsArgs grow h c [x]).2 c [y]).2 c
      = boundFields h c := by
  have hbc : boundFields h c = (h.cells s.array).take s.len := by
    simp [boundFields, hv, Heap.elems]
  have hread : ∀ (g : Heap) (n : Nat),
      boundFields g (.withValue c logger.BindFieldsKey (.fieldSlice (some ⟨s.array, n, s.cap⟩)))
        = (g.cells s.array).take n := by
    intro g n
    simp [boundFields, Context.Value, Heap.elems]
  have hreadc : ∀ g : Heap, boundFields g c = (g.cells s.array).take s.len := by
    intro g
    simp [boundFields, hv, Heap.elems]
  have ha1 : s.array < (h ++ [[x]]).length := by
    rw [List.length_append]; exact Nat.lt_add_right _ ha
  have hc1 : (Heap.write (h ++ [[x]]) s.array s.len [x]).cells s.array
      = (h.cells s.array).take s.len ++ [x] ++ (h.cells s.array).drop (s.len + 1) := by
    rw [cells_write_self _ _ _ _ ha1, cells_alloc_old _ _ _ ha]
    rfl
  have ha2 : s.array < (Heap.write (h ++ [[x]]) s.array s.len [x]).length := by
    rw [length_write]; exact ha1
  have ha3 : s.array
      < (Heap.write (h ++ [[x]]) s.array s.len [x] ++ [[y]]).length := by
    rw [List.length_append]; exact Nat.lt_add_right _ ha2
  have hlen1 : s.len ≤ ((Heap.write (h ++ [[x]]) s.array s.len [x]).cells s.array).length := by
    rw [hc1]
    simp only [List.length_append, List.length_take, List.length_singleton]
    rw [Nat.min_eq_left hlen]
    omega
  have ht1 := take_written (h.cells s.array) ((h.cells s.array).drop (s.len + 1)) s.len x hlen
  have hc2 : (Heap.write (Heap.write (h ++ [[x]]) s.array s.len [x] ++ [[y]]) s.array s.len
        [y]).cells s.array
      = ((Heap.write (h ++ [[x]]) s.array s.len [x]).cells s.array).take s.len ++ [y]
        ++ ((Heap.write (h ++ [[x]]) s.array s.len [x]).cells s.array).drop (s.len + 1) := by
    rw [cells_write_self _ _ _ _ ha3, cells_alloc_old _ _ _ ha2]
    rfl
  have ht2 := take_written ((Heap.write (h ++ [[x]]) s.array s.len [x]).cells s.array)
    (((Heap.write (h ++ [[x]]) s.array s.len [x]).cells s.array).drop (s.len + 1)) s.len y hlen1
  have hT : ((Heap.write (h ++ [[x]]) s.array s.len [x]).cells s.array).take s.len
      = (h.cells s.array).take s.len := by
    rw [hc1]; exact ht1.2
  rw [BindFieldsArgs_in_place grow h c s x hv hcap]
  rw [BindFieldsArgs_in_place grow _ c s y hv hcap]
  simp only []
  refine ⟨?_, ?_, ?_⟩
  · rw [hread, hc1, ht1.1, hbc]
  · rw [hread, hc2, ht2.1, hT, hbc]
  · rw [hreadc, hc2, ht2.2, hT, hbc]

/-- C12: with slices kept as headers into shared backing arrays, the chain
`c1 = BindFields(Background, f1, f2, f3)`, `c = BindFields(c1, g)` leaves `c` with a slice of
length 4 and capacity 6 holding `f1 f2 f3 g`. The child `a = BindFields(c, x)` reads
`f1 f2 f3 g x` when it is created and `f1 f2 f3 g y` once the sibling `b = BindFields(c, y)`
has been created: `x` is lost from `a`, which no longer reads the list of `c` followed by `x`,
while the list of `c` is unchanged. Under every growth policy the same happens when the first
call of the chain is given a slice of length 1 and capacity 4. -/
theorem BindFields_sibling_overwrites :
    chain.1.Value logger.BindFieldsKey = some (.fieldSlice (some ⟨2, 4, 6⟩)) ∧
    boundFields chain.2 chain.1
      = [zap.String "f1" "1", zap.String "f2" "2", zap.String "f3" "3", zap.String "g" "4"] ∧
    boundFields childA.2 childA.1
      = [zap.String "f1" "1", zap.String "f2" "2", zap.String "f3" "3", zap.String "g" "4",
         zap.String "x" "5"] ∧
    boundFields childB.2 childA.1
      = [zap.String "f1" "1", zap.String "f2" "2", zap.String "f3" "3", zap.String "g" "4",
         zap.String "y" "6"] ∧
    boundFields childB.2 childA.1 ≠ boundFields chain.2 chain.1 ++ [zap.String "x" "5"] ∧
    boundFields childB.2 childB.1
      = [zap.String "f1" "1", zap.String "f2" "2", zap.String "f3" "3", zap.String "g" "4",
         zap.String "y" "6"] ∧
    boundFields childB.2 chain.1
      = [zap.String "f1" "1", zap.String "f2" "2", zap.String "f3" "3", zap.String "g" "4"] ∧
    (∀ (grow : Nat → Nat → Nat) (f0 x y : zap.Field),
      boundFields
          (BindFieldsArgs grow
            (BindFieldsArgs grow [[f0]]
              (BindFields grow [[f0]] Context.background (some ⟨0, 1, 4⟩)).1 [x]).2
            (BindFields grow [[f0]] Context.background (some ⟨0, 1, 4⟩)).1 [y]).2
          (BindFieldsArgs grow [[f0]]
            (BindFields grow [[f0]] Context.background (some ⟨0, 1, 4⟩)).1 [x]).1
        = [f0, y]) := by
  refine ⟨by decide, by decide, by decide, by decide, by decide, by decide, by decide, ?_⟩
  intro grow f0 x y
  exact (siblings_share_cell grow [[f0]]
    (BindFields grow [[f0]] Context.background (some ⟨0, 1, 4⟩)).1 ⟨0, 1, 4⟩ x y rfl
    (by simp) (by decide) (by simp [Heap.cells])).2.1

end backing
